import Mathlib

/-!
# Verification of the dap-mcp session manager, DAP client and launch-config resolver

This file gives a shallow embedding of the parts of the `dap-mcp` repository
that the audited claims are about:

* the session manager (`internal/dap/session.go`): session table, compound
  sessions, timeout sweep;
* the DAP client (the `dap` package client file): pending-request table,
  reader loop;
* the launch-configuration resolver (the `launchconfig` package): variable
  expansion, input validation, JSON round trip of `DebugConfiguration`;
* the launch tool handler (`internal/mcp/handlers.go`).

Go maps are modelled as association lists, Go's `(value, error)` returns as
`Except`/`Option`, and effectful steps (process spawning, DAP traffic,
filesystem access) as explicit environment records recording each step's
outcome.  Every definition is translated from the repository source; the
relevant file and function are named in each doc comment.
-/

set_option maxHeartbeats 1600000
set_option linter.unusedVariables false

namespace DapMcp

/-! ## Association-list model of Go maps

Keys are strings (session ids, compound names, JSON keys).  `insert` models
`m[k] = v`, `erase` models `delete(m, k)`, `lookup` models `v, ok := m[k]`.
-/

namespace GoMap

variable {α : Type}

def lookup (k : String) : List (String × α) → Option α
  | [] => none
  | (k', v) :: rest => if k' = k then some v else lookup k rest

/-- Go `delete(m, k)`. -/
def erase (k : String) : List (String × α) → List (String × α)
  | [] => []
  | e :: rest => if e.1 = k then erase k rest else e :: erase k rest

/-- Go `m[k] = v` (insert or replace). -/
def insert (k : String) (v : α) (m : List (String × α)) : List (String × α) :=
  (k, v) :: erase k m

@[simp] theorem lookup_nil (k : String) : lookup k ([] : List (String × α)) = none := rfl

@[simp] theorem lookup_cons_self (k : String) (v : α) (m : List (String × α)) :
    lookup k ((k, v) :: m) = some v := by simp [lookup]

theorem lookup_cons (k k' : String) (v : α) (m : List (String × α)) :
    lookup k ((k', v) :: m) = if k' = k then some v else lookup k m := rfl

@[simp] theorem lookup_cons_ne {k k' : String} (h : k' ≠ k) (v : α) (m : List (String × α)) :
    lookup k ((k', v) :: m) = lookup k m := by simp [lookup, h]

@[simp] theorem lookup_erase_self (k : String) (m : List (String × α)) :
    lookup k (erase k m) = none := by
  induction m with
  | nil => rfl
  | cons e rest ih =>
    by_cases h : e.1 = k
    · simpa [erase, h] using ih
    · simpa [erase, h, lookup] using ih

theorem lookup_erase_ne {k k' : String} (h : k' ≠ k) (m : List (String × α)) :
    lookup k (erase k' m) = lookup k m := by
  induction m with
  | nil => rfl
  | cons e rest ih =>
    by_cases he : e.1 = k'
    · have hne : e.1 ≠ k := by rw [he]; exact h
      simp [erase, he, lookup, hne, ih, h]
    · by_cases hk : e.1 = k
      · simp [erase, he, lookup, hk, Ne.symm h]
      · simp [erase, he, lookup, hk, ih]

@[simp] theorem lookup_insert_self (k : String) (v : α) (m : List (String × α)) :
    lookup k (insert k v m) = some v := by simp [insert]

theorem lookup_insert_ne {k k' : String} (h : k' ≠ k) (v : α) (m : List (String × α)) :
    lookup k (insert k' v m) = lookup k m := by
  simp [insert, lookup, h, lookup_erase_ne h]

theorem lookup_erase (k k' : String) (m : List (String × α)) :
    lookup k (erase k' m) = if k' = k then none else lookup k m := by
  by_cases h : k' = k
  · subst h; simp
  · simp [h, lookup_erase_ne h]

theorem erase_of_lookup_none {k : String} {m : List (String × α)}
    (h : lookup k m = none) : erase k m = m := by
  induction m with
  | nil => rfl
  | cons e rest ih =>
    by_cases he : e.1 = k
    · rw [← he] at h
      simp [lookup] at h
    · rw [lookup_cons_ne he] at h
      simp [erase, he, ih h]

end GoMap

/-! ## Session manager (`internal/dap/session.go`) -/

/-- Session status constants from `pkg/types` (referenced by the source as
`types.SessionStatusInitializing` etc.; the package itself is not under the
audited tree, so the constants are mirrored here). -/
inductive SessionStatus where
  | initializing
  | running
  | stopped
  | terminated
  deriving DecidableEq, Repr

/-- `Session` (session.go): the fields observable through the manager.
`Client` and `Process` are external resources; the model keeps whether a
client has been attached and the recorded pid. -/
structure Session where
  id : String
  language : String
  status : SessionStatus
  hasClient : Bool
  pid : Int
  program : String
  createdAt : Int
  deriving DecidableEq, Repr

/-- `CompoundSession` (session.go). -/
structure CompoundSession where
  name : String
  sessionIds : List String
  stopAll : Bool
  deriving DecidableEq, Repr

/-- `SessionManager` (session.go): three Go maps plus the configured limits.
The mutex, context and cleanup goroutine are concurrency machinery; each
exported operation below models one critical section (the code holds `sm.mu`
for the whole body of each operation). -/
structure SessionManager where
  sessions : List (String × Session)
  compoundSessions : List (String × CompoundSession)
  sessionToCompound : List (String × String)
  maxSessions : Nat
  sessionTimeout : Int
  deriving DecidableEq, Repr

/-- `NewSessionManager` (session.go): empty tables. -/
def newSessionManager (maxSessions : Nat) (sessionTimeout : Int) : SessionManager :=
  { sessions := []
    compoundSessions := []
    sessionToCompound := []
    maxSessions := maxSessions
    sessionTimeout := sessionTimeout }

/-- `SessionManager.CreateSession` (session.go lines 101-119).  The fresh
uuid and the current time are inputs of the model. -/
def createSession (sm : SessionManager) (newId : String) (language program : String)
    (now : Int) : Except String (Session × SessionManager) :=
  if sm.sessions.length ≥ sm.maxSessions then
    .error ("maximum number of sessions (" ++ toString sm.maxSessions ++ ") reached")
  else
    let session : Session :=
      { id := newId
        language := language
        status := .initializing
        hasClient := false
        pid := 0
        program := program
        createdAt := now }
    .ok (session, { sm with sessions := GoMap.insert newId session sm.sessions })

/-- `SessionManager.GetSession` (session.go lines 122-132). -/
def getSession (sm : SessionManager) (id : String) : Except String Session :=
  match GoMap.lookup id sm.sessions with
  | none => .error ("session not found: " ++ id)
  | some s => .ok s

/-- `SessionManager.terminateSessionLocked` (session.go lines 196-219): if
the id is present, disconnect/close the client and kill the process group
(external effects), then remove the entry.  The status write on the removed
record is unobservable once the entry is deleted. -/
def terminateSessionLocked (sm : SessionManager) (id : String) : SessionManager :=
  match GoMap.lookup id sm.sessions with
  | none => sm
  | some _ => { sm with sessions := GoMap.erase id sm.sessions }

/-- The sibling loop inside `SessionManager.TerminateSession` (session.go
lines 160-166): for every sibling id other than the one being terminated,
`terminateSessionLocked(siblingID)` followed by
`delete(sm.sessionToCompound, siblingID)`. -/
def terminateSiblings (id : String) : SessionManager → List String → SessionManager
  | sm, [] => sm
  | sm, sib :: rest =>
    if sib ≠ id then
      let sm1 := terminateSessionLocked sm sib
      terminateSiblings id { sm1 with sessionToCompound := GoMap.erase sib sm1.sessionToCompound } rest
    else
      terminateSiblings id sm rest

/-- `SessionManager.TerminateSession` (session.go lines 148-193).  The
`terminateDebuggee` flag is forwarded to `Client.Disconnect`, an external
effect; an error return leaves the manager unchanged (the caller keeps its
state). -/
def terminateSession (sm : SessionManager) (id : String) (terminateDebuggee : Bool) :
    Except String SessionManager :=
  match GoMap.lookup id sm.sessions with
  | none => .error ("session not found: " ++ id)
  | some _ =>
    let sm :=
      match GoMap.lookup id sm.sessionToCompound with
      | none => sm
      | some compoundName =>
        let sm :=
          match GoMap.lookup compoundName sm.compoundSessions with
          | none => sm
          | some compound =>
            if compound.stopAll then
              let sm := terminateSiblings id sm compound.sessionIds
              { sm with compoundSessions := GoMap.erase compoundName sm.compoundSessions }
            else sm
        { sm with sessionToCompound := GoMap.erase id sm.sessionToCompound }
    -- Disconnect / Close / killProcessGroup: external effects, best-effort.
    .ok { sm with sessions := GoMap.erase id sm.sessions }

/-- `SessionManager.TrackCompoundSession` (session.go lines 223-239). -/
def trackCompoundSession (sm : SessionManager) (compoundName : String)
    (sessionIds : List String) (stopAll : Bool) : SessionManager :=
  let compound : CompoundSession :=
    { name := compoundName, sessionIds := sessionIds, stopAll := stopAll }
  let sm := { sm with
    compoundSessions := GoMap.insert compoundName compound sm.compoundSessions }
  { sm with
    sessionToCompound :=
      sessionIds.foldl (fun m sid => GoMap.insert sid compoundName m) sm.sessionToCompound }

/-- `SessionManager.cleanupExpiredSessions` (session.go lines 88-98): every
session older than the timeout is removed via `terminateSessionLocked`.
The loop ranges over the table and only deletes the visited key, so folding
over the entry snapshot is equivalent. -/
def cleanupExpiredSessions (sm : SessionManager) (now : Int) : SessionManager :=
  sm.sessions.foldl
    (fun acc e => if now - e.2.createdAt > acc.sessionTimeout then
        terminateSessionLocked acc e.1
      else acc)
    sm

/-! ### Lemmas about the termination helpers -/

theorem terminateSessionLocked_sessions (sm : SessionManager) (id : String) :
    (terminateSessionLocked sm id).sessions = GoMap.erase id sm.sessions := by
  unfold terminateSessionLocked
  cases h : GoMap.lookup id sm.sessions with
  | none => simp [GoMap.erase_of_lookup_none h]
  | some s => rfl

@[simp] theorem terminateSessionLocked_compoundSessions (sm : SessionManager) (id : String) :
    (terminateSessionLocked sm id).compoundSessions = sm.compoundSessions := by
  unfold terminateSessionLocked; split <;> rfl

@[simp] theorem terminateSessionLocked_sessionToCompound (sm : SessionManager) (id : String) :
    (terminateSessionLocked sm id).sessionToCompound = sm.sessionToCompound := by
  unfold terminateSessionLocked; split <;> rfl

@[simp] theorem terminateSessionLocked_maxSessions (sm : SessionManager) (id : String) :
    (terminateSessionLocked sm id).maxSessions = sm.maxSessions := by
  unfold terminateSessionLocked; split <;> rfl

@[simp] theorem terminateSessionLocked_sessionTimeout (sm : SessionManager) (id : String) :
    (terminateSessionLocked sm id).sessionTimeout = sm.sessionTimeout := by
  unfold terminateSessionLocked; split <;> rfl

@[simp] theorem terminateSiblings_compoundSessions (id : String) (sm : SessionManager)
    (l : List String) :
    (terminateSiblings id sm l).compoundSessions = sm.compoundSessions := by
  induction l generalizing sm with
  | nil => rfl
  | cons sib rest ih =>
    unfold terminateSiblings
    by_cases h : sib = id <;> simp [h, ih]

/-- Sessions already absent stay absent through the sibling loop
(the loop only erases entries). -/
theorem terminateSiblings_sessions_none {m : String} (id : String) (sm : SessionManager)
    (l : List String) (h : GoMap.lookup m sm.sessions = none) :
    GoMap.lookup m (terminateSiblings id sm l).sessions = none := by
  induction l generalizing sm with
  | nil => exact h
  | cons sib rest ih =>
    unfold terminateSiblings
    by_cases hsib : sib = id
    · simp only [hsib, ne_eq, not_true_eq_false, if_false]
      exact ih sm h
    · simp only [ne_eq, hsib, not_false_eq_true, if_true]
      apply ih
      rw [terminateSessionLocked_sessions, GoMap.lookup_erase]
      split <;> simp [h]

/-- Mapping entries already absent stay absent through the sibling loop. -/
theorem terminateSiblings_map_none {m : String} (id : String) (sm : SessionManager)
    (l : List String) (h : GoMap.lookup m sm.sessionToCompound = none) :
    GoMap.lookup m (terminateSiblings id sm l).sessionToCompound = none := by
  induction l generalizing sm with
  | nil => exact h
  | cons sib rest ih =>
    unfold terminateSiblings
    by_cases hsib : sib = id
    · simp only [hsib, ne_eq, not_true_eq_false, if_false]
      exact ih sm h
    · simp only [ne_eq, hsib, not_false_eq_true, if_true]
      apply ih
      simp only [terminateSessionLocked_sessionToCompound]
      rw [GoMap.lookup_erase]
      split <;> simp [h]

/-- Every sibling other than the skipped id is removed from the session
table and from the session-to-compound mapping by the loop. -/
theorem terminateSiblings_removes {m : String} (id : String) (sm : SessionManager)
    (l : List String) (hm : m ∈ l) (hne : m ≠ id) :
    GoMap.lookup m (terminateSiblings id sm l).sessions = none ∧
    GoMap.lookup m (terminateSiblings id sm l).sessionToCompound = none := by
  induction l generalizing sm with
  | nil => cases hm
  | cons sib rest ih =>
    unfold terminateSiblings
    by_cases hsib : sib = id
    · simp only [hsib, ne_eq, not_true_eq_false, if_false]
      rcases List.mem_cons.mp hm with h | h
      · exact absurd (h.trans hsib) hne
      · exact ih sm h
    · simp only [ne_eq, hsib, not_false_eq_true, if_true]
      rcases List.mem_cons.mp hm with h | h
      · subst h
        constructor
        · apply terminateSiblings_sessions_none
          simp only [terminateSessionLocked_sessionToCompound]
          rw [terminateSessionLocked_sessions]
          simp
        · apply terminateSiblings_map_none
          simp
      · exact ih _ h

/-- Sessions whose id is not in the sibling list are untouched by the loop. -/
theorem terminateSiblings_sessions_notMem {m : String} (id : String) (sm : SessionManager)
    (l : List String) (hm : m ∉ l) :
    GoMap.lookup m (terminateSiblings id sm l).sessions = GoMap.lookup m sm.sessions := by
  induction l generalizing sm with
  | nil => rfl
  | cons sib rest ih =>
    have hm1 : m ≠ sib := fun h => hm (h ▸ List.mem_cons_self sib rest)
    have hm2 : m ∉ rest := fun h => hm (List.mem_cons_of_mem _ h)
    unfold terminateSiblings
    by_cases hsib : sib = id
    · simp only [hsib, ne_eq, not_true_eq_false, if_false]
      exact ih sm hm2
    · simp only [ne_eq, hsib, not_false_eq_true, if_true]
      rw [ih _ hm2]
      simp only [terminateSessionLocked_sessionToCompound]
      rw [terminateSessionLocked_sessions, GoMap.lookup_erase_ne (Ne.symm hm1)]

/-- A successful `TerminateSession(id, _)` always removes `id` from the
session table. -/
theorem terminateSession_ok_lookup {sm sm' : SessionManager} {id : String} {flag : Bool}
    (h : terminateSession sm id flag = .ok sm') :
    GoMap.lookup id sm'.sessions = none := by
  unfold terminateSession at h
  cases hl : GoMap.lookup id sm.sessions with
  | none => rw [hl] at h; cases h
  | some s =>
    rw [hl] at h
    simp only [Except.ok.injEq] at h
    rw [← h]
    simp

/-! ### Claim theorems: C6, C8, C2 -/

/-- **C6.** `CreateSession` fails with the limit-quantifying error message
and adds no session (the error return carries no new state) whenever the
table already holds at least `maxSessions` sessions; in particular with
`maxSessions = 0` every call fails.  (session.go lines 101-119.) -/
theorem createSession_limit (sm : SessionManager) (newId language program : String)
    (now : Int) :
    (sm.maxSessions ≤ sm.sessions.length →
      createSession sm newId language program now =
        .error ("maximum number of sessions (" ++ toString sm.maxSessions ++ ") reached")) ∧
    (sm.maxSessions = 0 →
      createSession sm newId language program now =
        .error ("maximum number of sessions (0) reached")) := by
  constructor
  · intro h
    unfold createSession
    rw [if_pos h]
  · intro h0
    unfold createSession
    rw [if_pos (by rw [h0]; exact Nat.zero_le _), h0]
    rfl

/-- Witness for C6: with `maxSessions = 0`, a concrete create call fails. -/
theorem createSession_limit_witness :
    createSession (newSessionManager 0 3600) "s1" "go" "./main.go" 0 =
      .error "maximum number of sessions (0) reached" :=
  (createSession_limit (newSessionManager 0 3600) "s1" "go" "./main.go" 0).2 rfl

/-- **C8.** Terminating an id that is not in the session table — including
the id of a session that was already terminated — returns the
session-not-found error; the error return carries no new state, so the
session table, the remaining sessions and the compound records are exactly
those of the caller's unchanged manager.  (session.go lines 148-155.) -/
theorem terminateSession_missing (sm : SessionManager) (id : String) (flag : Bool) :
    (GoMap.lookup id sm.sessions = none →
      terminateSession sm id flag = .error ("session not found: " ++ id)) ∧
    (∀ sm' flag0, terminateSession sm id flag0 = .ok sm' →
      terminateSession sm' id flag = .error ("session not found: " ++ id)) := by
  constructor
  · intro h
    unfold terminateSession
    rw [h]
  · intro sm' flag0 h
    have hnone := terminateSession_ok_lookup h
    unfold terminateSession
    rw [hnone]

/-- Witness for C8: terminating a never-created id on a fresh manager. -/
theorem terminateSession_missing_witness :
    terminateSession (newSessionManager 4 3600) "ghost" true =
      .error "session not found: ghost" :=
  (terminateSession_missing (newSessionManager 4 3600) "ghost" true).1 rfl

/-- **C2.** For a compound tracked with `stopAll = true`, terminating any
member that is in the session table removes every member of the compound
from the session table, removes the compound record, and removes the
session-to-compound mappings of all members, within the single call.
(session.go lines 148-193 and 196-219.) -/
theorem terminateSession_stopAll (sm : SessionManager) (s name : String)
    (comp : CompoundSession) (flag : Bool)
    (hs : (GoMap.lookup s sm.sessions).isSome = true)
    (hmap : GoMap.lookup s sm.sessionToCompound = some name)
    (hcomp : GoMap.lookup name sm.compoundSessions = some comp)
    (hstop : comp.stopAll = true) :
    ∃ sm', terminateSession sm s flag = .ok sm' ∧
      (∀ m ∈ comp.sessionIds, GoMap.lookup m sm'.sessions = none) ∧
      GoMap.lookup s sm'.sessions = none ∧
      GoMap.lookup name sm'.compoundSessions = none ∧
      (∀ m ∈ comp.sessionIds, GoMap.lookup m sm'.sessionToCompound = none) ∧
      GoMap.lookup s sm'.sessionToCompound = none := by
  obtain ⟨sess, hsess⟩ := Option.isSome_iff_exists.mp hs
  refine ⟨{ sessions := GoMap.erase s (terminateSiblings s sm comp.sessionIds).sessions
            compoundSessions :=
              GoMap.erase name (terminateSiblings s sm comp.sessionIds).compoundSessions
            sessionToCompound :=
              GoMap.erase s (terminateSiblings s sm comp.sessionIds).sessionToCompound
            maxSessions := (terminateSiblings s sm comp.sessionIds).maxSessions
            sessionTimeout := (terminateSiblings s sm comp.sessionIds).sessionTimeout },
          ?_, ?_, ?_, ?_, ?_, ?_⟩
  · unfold terminateSession
    simp only [hsess, hmap, hcomp, hstop, if_true]
  · intro m hm
    by_cases hms : m = s
    · subst hms; simp
    · show GoMap.lookup m (GoMap.erase s (terminateSiblings s sm comp.sessionIds).sessions)
        = none
      rw [GoMap.lookup_erase_ne (Ne.symm hms)]
      exact (terminateSiblings_removes s sm comp.sessionIds hm hms).1
  · simp
  · simp
  · intro m hm
    by_cases hms : m = s
    · subst hms; simp
    · show GoMap.lookup m
        (GoMap.erase s (terminateSiblings s sm comp.sessionIds).sessionToCompound) = none
      rw [GoMap.lookup_erase_ne (Ne.symm hms)]
      exact (terminateSiblings_removes s sm comp.sessionIds hm hms).2
  · simp

/-- A concrete two-member compound used by the C2 and C4 witnesses. -/
def compEx : CompoundSession := { name := "c", sessionIds := ["s1", "s2"], stopAll := true }

/-- A concrete session record used by witness states. -/
def sessEx (id : String) : Session :=
  { id := id, language := "go", status := .running, hasClient := true, pid := 7,
    program := "./main.go", createdAt := 0 }

/-- A concrete manager holding the two-member compound `compEx`. -/
def smEx : SessionManager :=
  { sessions := [("s1", sessEx "s1"), ("s2", sessEx "s2")]
    compoundSessions := [("c", compEx)]
    sessionToCompound := [("s1", "c"), ("s2", "c")]
    maxSessions := 4
    sessionTimeout := 3600 }

/-! ### C4: the compound-membership invariant -/

/-- The session-manager operations the invariant claim ranges over.  Each
constructor carries the inputs the modelled Go call receives (fresh uuid,
wall-clock time). -/
inductive SMOp where
  | create (id language program : String) (now : Int)
  | terminate (id : String) (terminateDebuggee : Bool)
  | track (compoundName : String) (sessionIds : List String) (stopAll : Bool)
  | cleanup (now : Int)

/-- Apply one operation; failing calls leave the manager unchanged (the Go
methods return an error without mutating state). -/
def applyOp (sm : SessionManager) : SMOp → SessionManager
  | .create id language program now =>
    match createSession sm id language program now with
    | .ok (_, sm') => sm'
    | .error _ => sm
  | .terminate id flag =>
    match terminateSession sm id flag with
    | .ok sm' => sm'
    | .error _ => sm
  | .track name ids stopAll => trackCompoundSession sm name ids stopAll
  | .cleanup now => cleanupExpiredSessions sm now

/-- A run of session-manager operations from a given state. -/
def runOps (sm : SessionManager) (ops : List SMOp) : SessionManager :=
  ops.foldl applyOp sm

/-- The spec's invariant: every id listed by a live compound record is a key
of the session table. -/
def compoundInvariant (sm : SessionManager) : Prop :=
  ∀ name comp, GoMap.lookup name sm.compoundSessions = some comp →
    ∀ id ∈ comp.sessionIds, (GoMap.lookup id sm.sessions).isSome = true

/-- The consistency that `TrackCompoundSession` establishes when it is given
ids of sessions in the table (as the compound-launch handler does): every
live compound has `stopAll = true` (the handler only tracks in that case),
its members are in the session table, and each member's
session-to-compound mapping points back to it. -/
def trackedConsistently (sm : SessionManager) : Prop :=
  ∀ name comp, GoMap.lookup name sm.compoundSessions = some comp →
    comp.stopAll = true ∧
    ∀ id ∈ comp.sessionIds,
      (GoMap.lookup id sm.sessions).isSome = true ∧
      GoMap.lookup id sm.sessionToCompound = some name

/-- **C4, counterexample.**  The invariant is not maintained at every
reachable state: create a session at time 0 with a 3600-unit timeout, track
it in a compound, then run the periodic timeout sweep at time 4000.
`cleanupExpiredSessions` (session.go lines 88-98) removes the session via
`terminateSessionLocked`, which does not touch the compound tables, so the
live compound `"c"` still lists `"s1"` while `"s1"` is gone from the
session table. -/
theorem compoundInvariant_cleanup_cex :
    ¬ compoundInvariant (runOps (newSessionManager 4 3600)
      [SMOp.create "s1" "go" "./main.go" 0,
       SMOp.track "c" ["s1"] true,
       SMOp.cleanup 4000]) := by
  intro h
  have h1 : GoMap.lookup "c" (runOps (newSessionManager 4 3600)
      [SMOp.create "s1" "go" "./main.go" 0,
       SMOp.track "c" ["s1"] true,
       SMOp.cleanup 4000]).compoundSessions =
      some { name := "c", sessionIds := ["s1"], stopAll := true } := by rfl
  have h2 := h "c" { name := "c", sessionIds := ["s1"], stopAll := true } h1 "s1"
    (List.mem_singleton.mpr rfl)
  have h3 : GoMap.lookup "s1" (runOps (newSessionManager 4 3600)
      [SMOp.create "s1" "go" "./main.go" 0,
       SMOp.track "c" ["s1"] true,
       SMOp.cleanup 4000]).sessions = none := by rfl
  rw [h3] at h2
  simp at h2

/-- **C4, amended.**  The invariant is preserved by `TrackCompoundSession`
when the tracked ids are in the session table, and by `TerminateSession`
from any consistently tracked state; it is *not* preserved by the periodic
timeout sweep (see the counterexample), which removes expired sessions
without updating compound records. -/
theorem compoundInvariant_preservation :
    (∀ (sm : SessionManager) (name : String) (ids : List String) (stopAll : Bool),
      compoundInvariant sm →
      (∀ id ∈ ids, (GoMap.lookup id sm.sessions).isSome = true) →
      compoundInvariant (trackCompoundSession sm name ids stopAll)) ∧
    (∀ (sm : SessionManager) (id : String) (flag : Bool) (sm' : SessionManager),
      trackedConsistently sm →
      terminateSession sm id flag = .ok sm' →
      compoundInvariant sm') := by
  constructor
  · intro sm name ids stopAll hinv hids name' comp' hc' m hmem
    have hsess : (trackCompoundSession sm name ids stopAll).sessions = sm.sessions := rfl
    have hcomp : (trackCompoundSession sm name ids stopAll).compoundSessions =
        GoMap.insert name { name := name, sessionIds := ids, stopAll := stopAll }
          sm.compoundSessions := rfl
    rw [hcomp] at hc'
    rw [hsess]
    by_cases hn : name = name'
    · subst hn
      rw [GoMap.lookup_insert_self] at hc'
      obtain rfl := (Option.some.injEq _ _).mp hc'
      exact hids m hmem
    · rw [GoMap.lookup_insert_ne hn] at hc'
      exact hinv name' comp' hc' m hmem
  · intro sm id flag sm' htr h
    unfold terminateSession at h
    cases hl : GoMap.lookup id sm.sessions with
    | none => rw [hl] at h; cases h
    | some sess =>
      simp only [hl] at h
      cases hm : GoMap.lookup id sm.sessionToCompound with
      | none =>
        simp only [hm] at h
        injection h with h'
        subst h'
        intro name' comp' hc' m hmem
        obtain ⟨hsome, hmap⟩ := (htr name' comp' hc').2 m hmem
        have hne : m ≠ id := by
          intro hEq; rw [hEq, hm] at hmap; cases hmap
        show (GoMap.lookup m (GoMap.erase id sm.sessions)).isSome = true
        rw [GoMap.lookup_erase_ne (Ne.symm hne)]
        exact hsome
      | some name =>
        simp only [hm] at h
        cases hc : GoMap.lookup name sm.compoundSessions with
        | none =>
          simp only [hc] at h
          injection h with h'
          subst h'
          intro name' comp' hc' m hmem
          obtain ⟨hsome, hmap⟩ := (htr name' comp' hc').2 m hmem
          have hne : m ≠ id := by
            intro hEq
            rw [hEq, hm] at hmap
            obtain rfl := (Option.some.injEq _ _).mp hmap
            rw [hc] at hc'
            cases hc'
          show (GoMap.lookup m (GoMap.erase id sm.sessions)).isSome = true
          rw [GoMap.lookup_erase_ne (Ne.symm hne)]
          exact hsome
        | some comp =>
          have hstop : comp.stopAll = true := (htr name comp hc).1
          simp only [hc, hstop, if_true] at h
          injection h with h'
          subst h'
          intro name' comp' hc' m hmem
          have hcomps : (terminateSiblings id sm comp.sessionIds).compoundSessions =
              sm.compoundSessions := terminateSiblings_compoundSessions id sm _
          rw [show (GoMap.erase name
              (terminateSiblings id sm comp.sessionIds).compoundSessions) =
              GoMap.erase name sm.compoundSessions by rw [hcomps]] at hc'
          rw [GoMap.lookup_erase] at hc'
          by_cases hnn : name = name'
          · rw [if_pos hnn] at hc'; cases hc'
          · rw [if_neg hnn] at hc'
            obtain ⟨hsome, hmap⟩ := (htr name' comp' hc').2 m hmem
            have hne : m ≠ id := by
              intro hEq
              rw [hEq, hm] at hmap
              exact hnn ((Option.some.injEq _ _).mp hmap)
            have hnotin : m ∉ comp.sessionIds := by
              intro hmemC
              have := ((htr name comp hc).2 m hmemC).2
              rw [hmap] at this
              exact hnn (((Option.some.injEq _ _).mp this).symm)
            show (GoMap.lookup m (GoMap.erase id
              (terminateSiblings id sm comp.sessionIds).sessions)).isSome = true
            rw [GoMap.lookup_erase_ne (Ne.symm hne),
              terminateSiblings_sessions_notMem id sm comp.sessionIds hnotin]
            exact hsome

/-- Helper for the C4 witness: the concrete manager `smEx` is consistently
tracked. -/
theorem trackedConsistently_smEx : trackedConsistently smEx := by
  intro name comp hc
  by_cases hn : "c" = name
  · subst hn
    have hcomp : compEx = comp := by
      simpa [GoMap.lookup, smEx] using hc
    subst hcomp
    refine ⟨rfl, ?_⟩
    intro id hid
    simp only [compEx, List.mem_cons, List.mem_singleton, List.not_mem_nil, or_false] at hid
    rcases hid with rfl | rfl
    · exact ⟨rfl, rfl⟩
    · exact ⟨rfl, rfl⟩
  · exact absurd hc (by simp [GoMap.lookup, smEx, hn])

/-- Witness for the amended C4: terminating a member of the concrete
compound yields a state satisfying the invariant. -/
theorem compoundInvariant_preservation_witness :
    ∃ sm', terminateSession smEx "s1" true = Except.ok sm' ∧ compoundInvariant sm' :=
  ⟨_, rfl, compoundInvariant_preservation.2 smEx "s1" true _ trackedConsistently_smEx rfl⟩

/-- Witness for C2: terminating member `s1` of the concrete compound. -/
theorem terminateSession_stopAll_witness :
    ∃ sm', terminateSession smEx "s1" false = .ok sm' ∧
      (∀ m ∈ compEx.sessionIds, GoMap.lookup m sm'.sessions = none) ∧
      GoMap.lookup "s1" sm'.sessions = none ∧
      GoMap.lookup "c" sm'.compoundSessions = none ∧
      (∀ m ∈ compEx.sessionIds, GoMap.lookup m sm'.sessionToCompound = none) ∧
      GoMap.lookup "s1" sm'.sessionToCompound = none :=
  terminateSession_stopAll smEx "s1" "c" compEx false rfl rfl rfl rfl

/-! ## The launch tool handler (`internal/mcp/handlers.go`, `handleDebugLaunch`)

The direct-args path of `Server.handleDebugLaunch` (lines 28-146; the
config-based path taken when `configName` is set delegates to
`handleConfigBasedLaunch`).  The handler's effectful steps — parameter
extraction, adapter lookup, permission check, adapter spawn/connect and the
DAP calls — are modelled by an environment record carrying each step's
outcome; the session-manager calls are the state-passing functions above. -/

/-- `SessionManager.SetSessionClient` (session.go lines 263-274). -/
def setSessionClient (sm : SessionManager) (id : String) : Except String SessionManager :=
  match GoMap.lookup id sm.sessions with
  | none => .error ("session not found: " ++ id)
  | some s => .ok { sm with sessions := GoMap.insert id { s with hasClient := true } sm.sessions }

/-- `SessionManager.SetSessionProcess` (session.go lines 277-289). -/
def setSessionProcess (sm : SessionManager) (id : String) (pid : Int) :
    Except String SessionManager :=
  match GoMap.lookup id sm.sessions with
  | none => .error ("session not found: " ++ id)
  | some s => .ok { sm with sessions := GoMap.insert id { s with pid := pid } sm.sessions }

/-- `SessionManager.UpdateSessionStatus` (session.go lines 292-306). -/
def updateSessionStatus (sm : SessionManager) (id : String) (status : SessionStatus) :
    Except String SessionManager :=
  match GoMap.lookup id sm.sessions with
  | none => .error ("session not found: " ++ id)
  | some s => .ok { sm with sessions := GoMap.insert id { s with status := status } sm.sessions }

/-- The handler ignores the error return of the manager setters and of
`TerminateSession`; on error the manager is left as it was. -/
def ignoreErr (sm : SessionManager) : Except String SessionManager → SessionManager
  | .ok sm' => sm'
  | .error _ => sm

/-- Outcomes of each effectful step of the direct-args launch path, in
source order.  `freshId` is the uuid `CreateSession` would mint and `now`
its creation time. -/
structure LaunchEnv where
  langParam : Option String
  programParam : Option String
  adapterAvailable : Bool
  freshId : String
  now : Int
  canSpawn : Bool
  spawnOk : Bool
  spawnPid : Option Int
  initOk : Bool
  launchAsyncOk : Bool
  waitInitOk : Bool
  configDoneOk : Bool
  waitLaunchOk : Bool
  deriving DecidableEq, Repr

/-- The handler's result, one constructor per typed error it returns
(MISSING_PARAMETER, ADAPTER_NOT_SUPPORTED, SESSION_LIMIT_REACHED,
PERMISSION_DENIED, ADAPTER_SPAWN_FAILED, DAP_INIT_FAILED, DAP_LAUNCH_FAILED
for the async send, DAP_TIMEOUT, DAP_PROTOCOL_ERROR, DAP_LAUNCH_FAILED for
the response wait) plus success. -/
inductive LaunchOutcome where
  | missingParam (which : String)
  | adapterNotSupported
  | sessionLimitReached
  | spawnDenied
  | spawnFailed
  | initFailed
  | launchAsyncFailed
  | waitInitTimeout
  | configDoneFailed
  | launchRespFailed
  | launched (sessionId : String)
  deriving DecidableEq, Repr

/-- What the handler returned, the manager state it left behind, and every
`TerminateSession(id, terminateDebuggee)` call it made. -/
structure HandlerResult where
  outcome : LaunchOutcome
  sm : SessionManager
  terminations : List (String × Bool)
  deriving DecidableEq, Repr

/-- `Server.handleDebugLaunch`, direct-args path (handlers.go lines
28-146).  The launch-argument map built from the request (cwd, stopOnEntry,
target, webRoot, python/pythonPath) only feeds the external spawn and DAP
calls and is part of the environment outcomes. -/
def handleDebugLaunchDirect (env : LaunchEnv) (sm : SessionManager) : HandlerResult :=
  match env.langParam with
  | none => ⟨.missingParam "language", sm, []⟩
  | some lang =>
    match env.programParam with
    | none => ⟨.missingParam "program", sm, []⟩
    | some program =>
      if ¬ env.adapterAvailable then ⟨.adapterNotSupported, sm, []⟩
      else
        match createSession sm env.freshId lang program env.now with
        | .error _ => ⟨.sessionLimitReached, sm, []⟩
        | .ok (session, sm) =>
          if ¬ env.canSpawn then
            ⟨.spawnDenied, ignoreErr sm (terminateSession sm session.id false),
              [(session.id, false)]⟩
          else if ¬ env.spawnOk then
            ⟨.spawnFailed, ignoreErr sm (terminateSession sm session.id false),
              [(session.id, false)]⟩
          else
            let sm := match env.spawnPid with
              | some pid => ignoreErr sm (setSessionProcess sm session.id pid)
              | none => sm
            let sm := ignoreErr sm (setSessionClient sm session.id)
            if ¬ env.initOk then
              ⟨.initFailed, ignoreErr sm (terminateSession sm session.id true),
                [(session.id, true)]⟩
            else if ¬ env.launchAsyncOk then
              ⟨.launchAsyncFailed, ignoreErr sm (terminateSession sm session.id true),
                [(session.id, true)]⟩
            else if ¬ env.waitInitOk then
              ⟨.waitInitTimeout, ignoreErr sm (terminateSession sm session.id true),
                [(session.id, true)]⟩
            else if ¬ env.configDoneOk then
              ⟨.configDoneFailed, ignoreErr sm (terminateSession sm session.id true),
                [(session.id, true)]⟩
            else if ¬ env.waitLaunchOk then
              ⟨.launchRespFailed, ignoreErr sm (terminateSession sm session.id true),
                [(session.id, true)]⟩
            else
              ⟨.launched session.id,
                ignoreErr sm (updateSessionStatus sm session.id .running), []⟩

/-- Spec-side (from the amended claim): the `terminateDebuggee` flag the
handler uses for each post-allocation failure — `false` for the spawn
permission check and the spawn/connect failure (no debuggee exists yet),
`true` from `Initialize` onwards. -/
def launchFailureTerminateFlag : LaunchOutcome → Option Bool
  | .spawnDenied => some false
  | .spawnFailed => some false
  | .initFailed => some true
  | .launchAsyncFailed => some true
  | .waitInitTimeout => some true
  | .configDoneFailed => some true
  | .launchRespFailed => some true
  | _ => none

/-- An environment in which everything is in place but spawning is not
permitted by the configured mode. -/
def envDenied : LaunchEnv :=
  { langParam := some "go", programParam := some "./main.go", adapterAvailable := true,
    freshId := "sid", now := 0, canSpawn := false, spawnOk := true, spawnPid := some 42,
    initOk := true, launchAsyncOk := true, waitInitOk := true, configDoneOk := true,
    waitLaunchOk := true }

/-- **C3, counterexample.**  When the spawn permission check fails after the
session has been allocated, the handler terminates the session with
`terminateDebuggee = false` (handlers.go lines 81-84), not `true` as the
claim states; the same holds for a spawn/connect failure (lines 87-91). -/
theorem handleDebugLaunch_flag_cex :
    (handleDebugLaunchDirect envDenied (newSessionManager 4 3600)).outcome =
      .spawnDenied ∧
    (handleDebugLaunchDirect envDenied (newSessionManager 4 3600)).terminations =
      [("sid", false)] ∧
    ¬ ((handleDebugLaunchDirect envDenied (newSessionManager 4 3600)).terminations =
      [("sid", true)]) := by decide

theorem terminateSession_isOk {sm : SessionManager} {id : String}
    (h : (GoMap.lookup id sm.sessions).isSome = true) (flag : Bool) :
    ∃ sm', terminateSession sm id flag = .ok sm' := by
  obtain ⟨s, hs⟩ := Option.isSome_iff_exists.mp h
  unfold terminateSession
  rw [hs]
  exact ⟨_, rfl⟩

theorem ignoreErr_terminate_lookup (sm : SessionManager) (id : String) (flag : Bool)
    (h : (GoMap.lookup id sm.sessions).isSome = true) :
    GoMap.lookup id (ignoreErr sm (terminateSession sm id flag)).sessions = none := by
  obtain ⟨sm', hok⟩ := terminateSession_isOk h flag
  rw [hok]
  exact terminateSession_ok_lookup hok

theorem setSessionClient_presence (sm : SessionManager) (id : String)
    (h : (GoMap.lookup id sm.sessions).isSome = true) :
    (GoMap.lookup id (ignoreErr sm (setSessionClient sm id)).sessions).isSome = true := by
  obtain ⟨s, hs⟩ := Option.isSome_iff_exists.mp h
  unfold setSessionClient
  rw [hs]
  simp [ignoreErr]

theorem setSessionProcess_presence (sm : SessionManager) (id : String) (pid : Int)
    (h : (GoMap.lookup id sm.sessions).isSome = true) :
    (GoMap.lookup id (ignoreErr sm (setSessionProcess sm id pid)).sessions).isSome = true := by
  obtain ⟨s, hs⟩ := Option.isSome_iff_exists.mp h
  unfold setSessionProcess
  rw [hs]
  simp [ignoreErr]

/-- **C3, amended.**  Once the direct-args launch handler has allocated a
session, the failure of any subsequent step terminates exactly that session
and leaves it out of the session table; the termination uses
`terminateDebuggee = true` for failures from `Initialize` onwards, but
`terminateDebuggee = false` for the spawn permission check and the adapter
spawn/connect failure.  On success no termination happens. -/
theorem handleDebugLaunch_failure_cleanup (env : LaunchEnv) (sm : SessionManager)
    (hlang : env.langParam.isSome = true) (hprog : env.programParam.isSome = true)
    (hadapter : env.adapterAvailable = true)
    (hroom : sm.sessions.length < sm.maxSessions) :
    (match launchFailureTerminateFlag (handleDebugLaunchDirect env sm).outcome with
     | some flag =>
        (handleDebugLaunchDirect env sm).terminations = [(env.freshId, flag)] ∧
        GoMap.lookup env.freshId (handleDebugLaunchDirect env sm).sm.sessions = none
     | none =>
        (handleDebugLaunchDirect env sm).outcome = .launched env.freshId ∧
        (handleDebugLaunchDirect env sm).terminations = []) := by
  obtain ⟨lang, hl⟩ := Option.isSome_iff_exists.mp hlang
  obtain ⟨program, hp⟩ := Option.isSome_iff_exists.mp hprog
  set newSess : Session :=
    { id := env.freshId, language := lang, status := .initializing,
      hasClient := false, pid := 0, program := program, createdAt := env.now } with hnew
  have hcreate : createSession sm env.freshId lang program env.now =
      .ok (newSess,
           { sm with sessions := GoMap.insert env.freshId newSess sm.sessions }) := by
    unfold createSession
    rw [if_neg (by omega)]
  set sm1 : SessionManager :=
    { sm with sessions := GoMap.insert env.freshId newSess sm.sessions } with hsm1
  have hpresent1 : (GoMap.lookup env.freshId sm1.sessions).isSome = true := by
    rw [hsm1]
    simp
  unfold handleDebugLaunchDirect
  rw [hl, hp]
  simp only [hadapter, not_true_eq_false, if_false, Bool.not_eq_true]
  rw [hcreate]
  by_cases hspawnP : env.canSpawn
  case neg =>
    simp only [hspawnP, not_false_eq_true, if_true, launchFailureTerminateFlag]
    exact ⟨by trivial, ignoreErr_terminate_lookup sm1 env.freshId false hpresent1⟩
  case pos =>
    simp only [hspawnP, not_true_eq_false, if_false]
    by_cases hspawn : env.spawnOk
    case neg =>
      simp only [hspawn, not_false_eq_true, if_true, launchFailureTerminateFlag]
      exact ⟨by trivial, ignoreErr_terminate_lookup sm1 env.freshId false hpresent1⟩
    case pos =>
      simp only [hspawn, not_true_eq_false, if_false]
      set sm2 : SessionManager :=
        match env.spawnPid with
        | some pid => ignoreErr sm1 (setSessionProcess sm1 env.freshId pid)
        | none => sm1 with hsm2
      have hpresent2 : (GoMap.lookup env.freshId sm2.sessions).isSome = true := by
        rw [hsm2]
        cases env.spawnPid with
        | none => exact hpresent1
        | some pid => exact setSessionProcess_presence sm1 env.freshId pid hpresent1
      set sm3 : SessionManager := ignoreErr sm2 (setSessionClient sm2 env.freshId) with hsm3
      have hpresent3 : (GoMap.lookup env.freshId sm3.sessions).isSome = true :=
        setSessionClient_presence sm2 env.freshId hpresent2
      by_cases hinit : env.initOk
      case neg =>
        simp only [hinit, not_false_eq_true, if_true, launchFailureTerminateFlag]
        exact ⟨by trivial, ignoreErr_terminate_lookup sm3 env.freshId true hpresent3⟩
      case pos =>
        simp only [hinit, not_true_eq_false, if_false]
        by_cases hla : env.launchAsyncOk
        case neg =>
          simp only [hla, not_false_eq_true, if_true, launchFailureTerminateFlag]
          exact ⟨by trivial, ignoreErr_terminate_lookup sm3 env.freshId true hpresent3⟩
        case pos =>
          simp only [hla, not_true_eq_false, if_false]
          by_cases hwi : env.waitInitOk
          case neg =>
            simp only [hwi, not_false_eq_true, if_true, launchFailureTerminateFlag]
            exact ⟨by trivial, ignoreErr_terminate_lookup sm3 env.freshId true hpresent3⟩
          case pos =>
            simp only [hwi, not_true_eq_false, if_false]
            by_cases hcd : env.configDoneOk
            case neg =>
              simp only [hcd, not_false_eq_true, if_true, launchFailureTerminateFlag]
              exact ⟨by trivial, ignoreErr_terminate_lookup sm3 env.freshId true hpresent3⟩
            case pos =>
              simp only [hcd, not_true_eq_false, if_false]
              by_cases hwl : env.waitLaunchOk
              case neg =>
                simp only [hwl, not_false_eq_true, if_true, launchFailureTerminateFlag]
                exact ⟨by trivial, ignoreErr_terminate_lookup sm3 env.freshId true hpresent3⟩
              case pos =>
                simp only [hwl, not_true_eq_false, if_false, launchFailureTerminateFlag]
                exact ⟨by trivial, by trivial⟩

/-- An environment in which `Initialize` fails. -/
def envInitFail : LaunchEnv := { envDenied with canSpawn := true, initOk := false }

/-- Witness for the amended C3: with a failing `Initialize` the handler
terminates the allocated session with `terminateDebuggee = true` and the
session is gone from the table. -/
theorem handleDebugLaunch_failure_cleanup_witness :
    (match launchFailureTerminateFlag
        (handleDebugLaunchDirect envInitFail (newSessionManager 4 3600)).outcome with
     | some flag =>
        (handleDebugLaunchDirect envInitFail (newSessionManager 4 3600)).terminations =
          [("sid", flag)] ∧
        GoMap.lookup "sid"
          (handleDebugLaunchDirect envInitFail (newSessionManager 4 3600)).sm.sessions = none
     | none =>
        (handleDebugLaunchDirect envInitFail (newSessionManager 4 3600)).outcome =
          .launched "sid" ∧
        (handleDebugLaunchDirect envInitFail (newSessionManager 4 3600)).terminations = []) :=
  handleDebugLaunch_failure_cleanup envInitFail (newSessionManager 4 3600)
    rfl rfl rfl (by decide)

/-! ## DAP client: the pending-request table (the `dap` package client file)

`Client.pendingRequests` maps a DAP sequence number to the waiting caller's
response channel.  The model keeps the set of registered sequence numbers
(as a duplicate-free list) together with whether the shutdown context has
been cancelled; each definition below is one `c.mu`-protected critical
section of the source, named after the function it occurs in. -/

/-- Remove a sequence number (Go `delete(c.pendingRequests, seq)`). -/
def pendingErase (seq : Nat) : List Nat → List Nat
  | [] => []
  | x :: rest => if x = seq then pendingErase seq rest else x :: pendingErase seq rest

/-- The pending-request state of a `Client`. -/
structure ClientState where
  pendingRequests : List Nat
  closed : Bool
  deriving DecidableEq, Repr

/-- `NewClient`: empty pending table, shutdown context live. -/
def newClient : ClientState := { pendingRequests := [], closed := false }

/-- Registration of a response channel under a fresh sequence number:
`c.pendingRequests[seq] = respCh`, performed by `sendRequest` (lines
259-263), `LaunchAsync` (lines 392-396) and `AttachAsync` (lines 478-482). -/
def registerRequest (c : ClientState) (seq : Nat) : ClientState :=
  { c with pendingRequests := seq :: pendingErase seq c.pendingRequests }

/-- The response branch of `Client.handleMessage` (lines 195-203): if the
sequence number is pending, the message is sent to the waiting channel and
the entry removed; otherwise the response is dropped.  The boolean reports
whether delivery happened. -/
def handleMessageResponse (c : ClientState) (requestSeq : Nat) : ClientState × Bool :=
  if requestSeq ∈ c.pendingRequests then
    ({ c with pendingRequests := pendingErase requestSeq c.pendingRequests }, true)
  else (c, false)

/-- The send-failure cleanup in `sendRequest` (lines 266-271; identical
code in `LaunchAsync` and `AttachAsync`). -/
def sendRequestSendFail (c : ClientState) (seq : Nat) : ClientState :=
  { c with pendingRequests := pendingErase seq c.pendingRequests }

/-- The timeout branch of `sendRequest`'s select (lines 277-281): the
caller removes its own slot. -/
def sendRequestTimeout (c : ClientState) (seq : Nat) : ClientState :=
  { c with pendingRequests := pendingErase seq c.pendingRequests }

/-- The shutdown branch of `sendRequest`'s select (lines 282-283): the
caller returns `ctx.Err()` without touching the table. -/
def sendRequestCtxDone (c : ClientState) : ClientState := c

/-- `Client.Close` (lines 1086-1091): cancel the context, wait for the
reader goroutine, close the transport.  The pending table is not touched. -/
def clientClose (c : ClientState) : ClientState := { c with closed := true }

theorem pendingErase_not_mem (seq : Nat) (l : List Nat) : seq ∉ pendingErase seq l := by
  induction l with
  | nil => simp [pendingErase]
  | cons x rest ih =>
    by_cases h : x = seq
    · simpa [pendingErase, h] using ih
    · simp [pendingErase, h, ih, Ne.symm h]

/-- **C1, counterexample.**  The pending-request table is not empty once the
client is closed: register a request (e.g. a `LaunchAsync` whose adapter
never answers — its waiting caller `WaitForLaunchResponse` never removes
the slot) and then run `Client.Close`; the entry survives the close. -/
theorem pendingRequests_after_close_cex :
    (clientClose (registerRequest newClient 1)).closed = true ∧
    (clientClose (registerRequest newClient 1)).pendingRequests ≠ [] := by
  constructor
  · rfl
  · intro h
    simp [clientClose, registerRequest, newClient, pendingErase] at h

/-- **C1, amended.**  An entry of the pending-request table is removed
exactly by response delivery (`handleMessage`, which delivers iff the entry
is present), by the send-failure cleanup, or by the synchronous caller's
timeout cleanup; the closed-client return path of `sendRequest` and
`Client.Close` itself leave the table untouched, so after `Close` the table
can still hold entries of requests that never got a response (see the
counterexample). -/
theorem pendingRequest_removal_discipline (c : ClientState) (seq : Nat) :
    ((handleMessageResponse c seq).2 = true ↔ seq ∈ c.pendingRequests) ∧
    seq ∉ (handleMessageResponse c seq).1.pendingRequests ∧
    seq ∉ (sendRequestTimeout c seq).pendingRequests ∧
    seq ∉ (sendRequestSendFail c seq).pendingRequests ∧
    (sendRequestCtxDone c).pendingRequests = c.pendingRequests ∧
    (clientClose c).pendingRequests = c.pendingRequests := by
  refine ⟨?_, ?_, pendingErase_not_mem seq _, pendingErase_not_mem seq _, rfl, rfl⟩
  · unfold handleMessageResponse
    split <;> simp_all
  · unfold handleMessageResponse
    split
    · exact pendingErase_not_mem seq _
    · simpa using by assumption

/-! ## DAP client: the reader loop (`Client.readLoop`, lines 74-112) -/

/-- One `transport.Receive()` outcome: a message (abstracted to a payload
index) or a receive error. -/
inductive RecvOutcome where
  | msg (m : Nat)
  | err
  deriving DecidableEq, Repr

/-- What the reader loop did with a finite prefix of receive outcomes. -/
structure ReadLoopResult where
  handled : List Nat
  stoppedOnErrors : Bool
  deriving DecidableEq, Repr

/-- `Client.readLoop` with its running `consecutiveErrors` counter
(`maxConsecutiveErrors = 5`): an error increments the counter and stops the
loop once the incremented counter reaches 5, otherwise reading continues; a
successful receive resets the counter to 0 and handles the message.
Shutdown via `ctx.Done()` is the claim's explicit exception and is not
modelled; an exhausted prefix means the loop is still reading. -/
def readLoopAux (consecutiveErrors : Nat) : List RecvOutcome → ReadLoopResult
  | [] => { handled := [], stoppedOnErrors := false }
  | .err :: rest =>
    if consecutiveErrors + 1 ≥ 5 then { handled := [], stoppedOnErrors := true }
    else readLoopAux (consecutiveErrors + 1) rest
  | .msg m :: rest =>
    let r := readLoopAux 0 rest
    { r with handled := m :: r.handled }

/-- The reader loop starts with a zero error counter. -/
def readLoop (stream : List RecvOutcome) : ReadLoopResult := readLoopAux 0 stream

/-- Spec-side: the stream begins with (at least) `n` consecutive errors. -/
def startsErrs : Nat → List RecvOutcome → Bool
  | 0, _ => true
  | _ + 1, [] => false
  | n + 1, .err :: rest => startsErrs n rest
  | _ + 1, .msg _ :: _ => false

/-- Spec-side: some suffix of the stream begins with `n` consecutive
errors, i.e. the stream contains a run of `n` consecutive errors. -/
def hasErrRun (n : Nat) : List RecvOutcome → Bool
  | [] => startsErrs n []
  | x :: rest => startsErrs n (x :: rest) || hasErrRun n rest

/-- Spec-side helper: a run of 5 consecutive errors occurs somewhere after
a successful receive. -/
def errRunAfterReset : List RecvOutcome → Bool
  | [] => false
  | .err :: rest => errRunAfterReset rest
  | .msg _ :: rest => hasErrRun 5 rest || errRunAfterReset rest

/-- The payload of a successful receive. -/
def msgOf : RecvOutcome → Option Nat
  | .msg m => some m
  | .err => none

theorem startsErrs_mono {m n : Nat} (h : m ≤ n) (s : List RecvOutcome)
    (hs : startsErrs n s = true) : startsErrs m s = true := by
  induction s generalizing m n with
  | nil =>
    cases n with
    | zero => cases m with
      | zero => rfl
      | succ m => omega
    | succ n => cases hs
  | cons x rest ih =>
    cases m with
    | zero => rfl
    | succ m =>
      cases n with
      | zero => omega
      | succ n =>
        cases x with
        | err => exact ih (by omega) hs
        | msg p => cases hs

theorem hasErrRun_eq (s : List RecvOutcome) :
    hasErrRun 5 s = (startsErrs 5 s || errRunAfterReset s) := by
  induction s with
  | nil => rfl
  | cons x rest ih =>
    cases x with
    | err =>
      show (startsErrs 5 (.err :: rest) || hasErrRun 5 rest) =
        (startsErrs 5 (.err :: rest) || errRunAfterReset rest)
      rw [ih]
      have hse : startsErrs 5 (.err :: rest) = startsErrs 4 rest := rfl
      rw [hse]
      cases h5 : startsErrs 5 rest
      · simp
      · have h4 := startsErrs_mono (m := 4) (n := 5) (by omega) rest h5
        simp [h4]
    | msg m =>
      show (startsErrs 5 (.msg m :: rest) || hasErrRun 5 rest) =
        (startsErrs 5 (.msg m :: rest) || (hasErrRun 5 rest || errRunAfterReset rest))
      have hsm : startsErrs 5 (.msg m :: rest) = false := rfl
      rw [hsm, ih]
      cases startsErrs 5 rest <;> cases errRunAfterReset rest <;> rfl

theorem readLoopAux_stopped (s : List RecvOutcome) :
    ∀ c, c ≤ 4 →
      (readLoopAux c s).stoppedOnErrors = (startsErrs (5 - c) s || errRunAfterReset s) := by
  induction s with
  | nil =>
    intro c hc
    have h1 : 5 - c = (4 - c) + 1 := by omega
    simp [readLoopAux, h1, startsErrs, errRunAfterReset]
  | cons x rest ih =>
    intro c hc
    cases x with
    | err =>
      by_cases h : c + 1 ≥ 5
      · have hc4 : c = 4 := by omega
        subst hc4
        simp [readLoopAux, startsErrs, errRunAfterReset]
      · have hstep : (readLoopAux c (.err :: rest)).stoppedOnErrors =
            (readLoopAux (c + 1) rest).stoppedOnErrors := by
          simp [readLoopAux, h]
        rw [hstep, ih (c + 1) (by omega)]
        have h1 : 5 - c = (5 - (c + 1)) + 1 := by omega
        rw [h1]
        rfl
    | msg m =>
      have hstep : (readLoopAux c (.msg m :: rest)).stoppedOnErrors =
          (readLoopAux 0 rest).stoppedOnErrors := rfl
      rw [hstep, ih 0 (by omega)]
      have h1 : 5 - c = (4 - c) + 1 := by omega
      rw [h1]
      show (startsErrs 5 rest || errRunAfterReset rest) =
        (false || (hasErrRun 5 rest || errRunAfterReset rest))
      rw [hasErrRun_eq]
      cases startsErrs 5 rest <;> cases errRunAfterReset rest <;> rfl

theorem readLoopAux_handled (s : List RecvOutcome) :
    ∀ c, c ≤ 4 → (startsErrs (5 - c) s || errRunAfterReset s) = false →
      (readLoopAux c s).handled = s.filterMap msgOf := by
  induction s with
  | nil => intro c hc hrun; rfl
  | cons x rest ih =>
    intro c hc hrun
    cases x with
    | err =>
      rw [Bool.or_eq_false_iff] at hrun
      obtain ⟨hstart, hafter⟩ := hrun
      by_cases h : c + 1 ≥ 5
      · exfalso
        have hc4 : c = 4 := by omega
        subst hc4
        exact absurd hstart (by simp [startsErrs])
      · have hstep : (readLoopAux c (.err :: rest)).handled =
            (readLoopAux (c + 1) rest).handled := by
          simp [readLoopAux, h]
        rw [hstep, ih (c + 1) (by omega) ?_]
        · rfl
        · rw [Bool.or_eq_false_iff]
          refine ⟨?_, hafter⟩
          have h1 : 5 - c = (5 - (c + 1)) + 1 := by omega
          rw [h1] at hstart
          exact hstart
    | msg m =>
      rw [Bool.or_eq_false_iff] at hrun
      obtain ⟨hstart, hafter⟩ := hrun
      have hafter' : (hasErrRun 5 rest || errRunAfterReset rest) = false := hafter
      rw [hasErrRun_eq] at hafter'
      have hstep : (readLoopAux c (.msg m :: rest)).handled =
          m :: (readLoopAux 0 rest).handled := rfl
      rw [hstep, ih 0 (by omega) ?_]
      · rfl
      · cases h5 : startsErrs 5 rest
        · rw [h5] at hafter'
          simpa using hafter'
        · rw [h5] at hafter'
          simp at hafter'

/-- **C9.**  The reader loop tolerates error bursts shorter than 5: it
stops on errors exactly when the receive stream contains a run of 5
consecutive receive errors (so after any error while fewer than 5
consecutive errors have occurred it keeps reading, and a successful receive
resets the consecutive count); on a stream without such a run it handles
every received message. -/
theorem readLoop_error_tolerance (stream : List RecvOutcome) :
    ((readLoop stream).stoppedOnErrors = hasErrRun 5 stream) ∧
    (hasErrRun 5 stream = false →
      (readLoop stream).handled = stream.filterMap msgOf) := by
  constructor
  · rw [readLoop, readLoopAux_stopped stream 0 (by omega), hasErrRun_eq]
  · intro h
    rw [hasErrRun_eq] at h
    exact readLoopAux_handled stream 0 (by omega) h

/-- Witness for C9: a stream with two bursts of four errors separated by a
successful receive is fully processed without stopping. -/
theorem readLoop_error_tolerance_witness :
    hasErrRun 5 [RecvOutcome.err, .err, .err, .err, .msg 10, .err, .err, .err, .err, .msg 11]
      = false ∧
    (readLoop [RecvOutcome.err, .err, .err, .err, .msg 10, .err, .err, .err, .err, .msg 11]).handled
      = [10, 11] := by
  constructor
  · decide
  · rw [(readLoop_error_tolerance _).2 (by decide)]
    decide

/-! ## Launch-configuration resolver (the `launchconfig` package)

JSON values are modelled by `JVal` (numbers as integers — every numeric
configuration field of the package is integral), Go maps again as
association lists. -/

/-- A JSON value (`interface\x7b\x7d` holding unmarshalled JSON). -/
inductive JVal where
  | null
  | bool (b : Bool)
  | num (n : Int)
  | str (s : String)
  | arr (elems : List JVal)
  | obj (fields : List (String × JVal))

mutual

def jvalBEq : JVal → JVal → Bool
  | .null, .null => true
  | .bool a, .bool b => a == b
  | .num a, .num b => a == b
  | .str a, .str b => a == b
  | .arr xs, .arr ys => jvalListBEq xs ys
  | .obj xs, .obj ys => jvalFieldsBEq xs ys
  | _, _ => false

def jvalListBEq : List JVal → List JVal → Bool
  | [], [] => true
  | x :: xs, y :: ys => jvalBEq x y && jvalListBEq xs ys
  | _, _ => false

def jvalFieldsBEq : List (String × JVal) → List (String × JVal) → Bool
  | [], [] => true
  | (k1, v1) :: xs, (k2, v2) :: ys => k1 == k2 && jvalBEq v1 v2 && jvalFieldsBEq xs ys
  | _, _ => false

end

mutual

theorem jvalBEq_eq : ∀ {a b : JVal}, jvalBEq a b = true → a = b
  | .null, .null, _ => rfl
  | .bool a, .bool b, h => by rw [eq_of_beq (by simpa [jvalBEq] using h : a == b)]
  | .num a, .num b, h => by rw [eq_of_beq (by simpa [jvalBEq] using h : a == b)]
  | .str a, .str b, h => by rw [eq_of_beq (by simpa [jvalBEq] using h : a == b)]
  | .arr xs, .arr ys, h =>
    congrArg JVal.arr (jvalListBEq_eq (by simpa [jvalBEq] using h))
  | .obj xs, .obj ys, h =>
    congrArg JVal.obj (jvalFieldsBEq_eq (by simpa [jvalBEq] using h))

theorem jvalListBEq_eq : ∀ {xs ys : List JVal}, jvalListBEq xs ys = true → xs = ys
  | [], [], _ => rfl
  | x :: xs, y :: ys, h => by
    have h' : jvalBEq x y = true ∧ jvalListBEq xs ys = true := by
      simpa [jvalListBEq, Bool.and_eq_true] using h
    rw [jvalBEq_eq h'.1, jvalListBEq_eq h'.2]

theorem jvalFieldsBEq_eq :
    ∀ {xs ys : List (String × JVal)}, jvalFieldsBEq xs ys = true → xs = ys
  | [], [], _ => rfl
  | (k1, v1) :: xs, (k2, v2) :: ys, h => by
    have h' : (k1 == k2) = true ∧ jvalBEq v1 v2 = true ∧ jvalFieldsBEq xs ys = true := by
      simpa [jvalFieldsBEq, Bool.and_eq_true, and_assoc] using h
    rw [eq_of_beq h'.1, jvalBEq_eq h'.2.1, jvalFieldsBEq_eq h'.2.2]

end

mutual

theorem jvalBEq_refl : ∀ (a : JVal), jvalBEq a a = true
  | .null => rfl
  | .bool a => by simp [jvalBEq]
  | .num a => by simp [jvalBEq]
  | .str a => by simp [jvalBEq]
  | .arr xs => by simpa [jvalBEq] using jvalListBEq_refl xs
  | .obj xs => by simpa [jvalBEq] using jvalFieldsBEq_refl xs

theorem jvalListBEq_refl : ∀ (xs : List JVal), jvalListBEq xs xs = true
  | [] => rfl
  | x :: xs => by
    simp only [jvalListBEq, Bool.and_eq_true]
    exact ⟨jvalBEq_refl x, jvalListBEq_refl xs⟩

theorem jvalFieldsBEq_refl : ∀ (xs : List (String × JVal)), jvalFieldsBEq xs xs = true
  | [] => rfl
  | (k, v) :: xs => by
    simp only [jvalFieldsBEq, Bool.and_eq_true]
    exact ⟨⟨by simp, jvalBEq_refl v⟩, jvalFieldsBEq_refl xs⟩

end

instance : DecidableEq JVal := fun a b =>
  if h : jvalBEq a b = true then isTrue (jvalBEq_eq h)
  else isFalse (fun he => h (he ▸ jvalBEq_refl a))

/-- The `\x7b` character, written via its code to keep braces out of
character literals. -/
def lbrace : Char := '\x7b'

/-- The `\x7d` character. -/
def rbrace : Char := '\x7d'

/-- `strings.TrimPrefix`. -/
def trimPrefixStr (s pre : String) : String :=
  if pre.data.isPrefixOf s.data then s.drop pre.length else s

/-- `strings.TrimSuffix`. -/
def trimSuffixStr (s suf : String) : String :=
  if suf.data.isSuffixOf s.data then s.dropRight suf.length else s

/-! ### `path/filepath` (Go standard library, Unix rules)

The resolver's file-derived variables call `filepath.Base`, `Dir`, `Ext`
and `Rel`; these are the standard library's pure path functions,
implemented here for slash-separated paths. -/

namespace Filepath

/-- `filepath.Clean` (Unix). -/
def clean (p : String) : String :=
  if p = "" then "."
  else
    let abs := p.startsWith "/"
    let comps := (p.splitOn "/").filter (fun c => c != "" && c != ".")
    let out := comps.foldl (fun acc c =>
      if c = ".." then
        match acc with
        | [] => if abs then [] else [".."]
        | x :: restAcc => if x = ".." then c :: x :: restAcc else restAcc
      else c :: acc) ([] : List String)
    let s := String.intercalate "/" out.reverse
    if abs then "/" ++ s
    else if s = "" then "." else s

/-- `filepath.Base` (Unix). -/
def base (p : String) : String :=
  if p = "" then "."
  else
    let q := p.dropRightWhile (· = '/')
    if q = "" then "/"
    else ((q.splitOn "/").getLast?).getD q

/-- `filepath.Ext`: the suffix from the final dot in the final element. -/
def ext (p : String) : String :=
  let revElem := p.data.reverse.takeWhile (fun c => c ≠ '/')
  if revElem.contains '.' then
    String.mk (((revElem.takeWhile (fun c => c ≠ '.')) ++ ['.']).reverse)
  else ""

/-- `filepath.Dir`: everything but the final element, cleaned. -/
def dir (p : String) : String :=
  clean (String.mk ((p.data.reverse.dropWhile (fun c => c ≠ '/')).reverse))

/-- Strip the common leading components of two component lists. -/
def dropCommon : List String → List String → (List String × List String)
  | x :: xs, y :: ys => if x = y then dropCommon xs ys else (x :: xs, y :: ys)
  | xs, ys => (xs, ys)

/-- `filepath.Rel` (Unix): the target expressed relative to the base. -/
def rel (basep targ : String) : Except String String :=
  let b := clean basep
  let t := clean targ
  if b = t then .ok "."
  else if (b.startsWith "/") ≠ (t.startsWith "/") then
    .error ("Rel: can't make " ++ targ ++ " relative to " ++ basep)
  else
    let bc := if b = "." then [] else (b.splitOn "/").filter (fun c => c != "")
    let tc := if t = "." then [] else (t.splitOn "/").filter (fun c => c != "")
    let rests := dropCommon bc tc
    if rests.1.contains ".." then
      .error ("Rel: can't make " ++ targ ++ " relative to " ++ basep)
    else
      let parts := List.replicate rests.1.length ".." ++ rests.2
      if parts = [] then .ok "." else .ok (String.intercalate "/" parts)

end Filepath

/-- `ResolutionContext` (launchconfig types file).  Nil maps behave like
empty ones in the source's lookups. -/
structure ResolutionContext where
  workspaceFolder : String
  currentFile : String
  lineNumber : Int
  selectedText : String
  inputValues : List (String × String)
  envOverrides : List (String × String)

/-- The operating-system services the resolver consults: environment
variables, the user's home/current/executable directories and the path
separator (`os` package), plus the two helpers whose work is filesystem
and subprocess I/O — `resolveConfigVariable`'s settings-file read
(`.vscode/settings.json` lookup and JSON navigation) and
`resolveCommandVariable` (shell execution / Python-interpreter probing). -/
structure OSEnv where
  getenv : String → String
  userHome : Except String String
  getwd : Except String String
  executable : Except String String
  pathSeparator : String
  readSetting : String → String → Except String String
  resolveCommand : String → String → Except String String

/-- `resolveConfigVariable` (launchconfig variables file): requires a
workspace folder, then reads the setting from the workspace's
`.vscode/settings.json` (the read itself is `OSEnv.readSetting`). -/
def resolveConfigVariable (os : OSEnv) (settingID workspaceFolder : String) :
    Except String String :=
  if workspaceFolder = "" then
    .error "workspaceFolder required for $\x7bconfig:\x7d variables"
  else os.readSetting settingID workspaceFolder

/-- `resolveVariable` (launchconfig variables file): the dispatch over a
single `$\x7b...\x7d` expression, in source order. -/
def resolveVariable (expr : String) (ctx : ResolutionContext) (os : OSEnv) :
    Except String String :=
  if expr = "workspaceFolder" then .ok ctx.workspaceFolder
  else if expr = "workspaceFolderBasename" then .ok (Filepath.base ctx.workspaceFolder)
  else if expr = "file" then .ok ctx.currentFile
  else if expr = "fileBasename" then .ok (Filepath.base ctx.currentFile)
  else if expr = "fileDirname" then .ok (Filepath.dir ctx.currentFile)
  else if expr = "fileBasenameNoExtension" then
    let b := Filepath.base ctx.currentFile
    .ok (trimSuffixStr b (Filepath.ext b))
  else if expr = "fileExtname" then .ok (Filepath.ext ctx.currentFile)
  else if expr = "relativeFile" then
    if ctx.workspaceFolder ≠ "" ∧ ctx.currentFile ≠ "" then
      match Filepath.rel ctx.workspaceFolder ctx.currentFile with
      | .ok r => .ok r
      | .error _ => .ok ctx.currentFile
    else .ok ctx.currentFile
  else if expr = "relativeFileDirname" then
    if ctx.workspaceFolder ≠ "" ∧ ctx.currentFile ≠ "" then
      match Filepath.rel ctx.workspaceFolder (Filepath.dir ctx.currentFile) with
      | .ok r => .ok r
      | .error _ => .ok (Filepath.dir ctx.currentFile)
    else .ok (Filepath.dir ctx.currentFile)
  else if expr = "lineNumber" then .ok (toString ctx.lineNumber)
  else if expr = "selectedText" then .ok ctx.selectedText
  else if expr = "userHome" then
    match os.userHome with
    | .ok home => .ok home
    | .error e => .error ("failed to get user home: " ++ e)
  else if expr = "cwd" then
    match os.getwd with
    | .ok cwd => .ok cwd
    | .error e => .error ("failed to get cwd: " ++ e)
  else if expr = "pathSeparator" then .ok os.pathSeparator
  else if expr = "execPath" then
    match os.executable with
    | .ok exe => .ok exe
    | .error e => .error ("failed to get executable path: " ++ e)
  else if "env:".data.isPrefixOf expr.data then
    let varName := trimPrefixStr expr "env:"
    match GoMap.lookup varName ctx.envOverrides with
    | some v => .ok v
    | none => .ok (os.getenv varName)
  else if "config:".data.isPrefixOf expr.data then
    resolveConfigVariable os (trimPrefixStr expr "config:") ctx.workspaceFolder
  else if "command:".data.isPrefixOf expr.data then
    os.resolveCommand (trimPrefixStr expr "command:") ctx.workspaceFolder
  else if "input:".data.isPrefixOf expr.data then
    let inputID := trimPrefixStr expr "input:"
    match GoMap.lookup inputID ctx.inputValues with
    | some v => .ok v
    | none => .error ("missing input value for $\x7binput:" ++ inputID ++ "\x7d")
  else .error ("unknown variable: $\x7b" ++ expr ++ "\x7d")

/-! ### The `$\x7b...\x7d` scanner

`ResolveVariables` uses `regexp.ReplaceAllStringFunc` with the pattern
dollar, open brace, one or more non-close-brace characters, close brace —
leftmost, non-overlapping matches.  `splitAtBrace` yields the (possibly
empty) run of characters before the first close brace; a match needs that
run non-empty. -/

def splitAtBrace : List Char → Option (List Char × List Char)
  | [] => none
  | c :: rest =>
    if c = rbrace then some ([], rest)
    else match splitAtBrace rest with
      | some (content, after) => some (c :: content, after)
      | none => none

theorem splitAtBrace_length {cs e r : List Char} (h : splitAtBrace cs = some (e, r)) :
    r.length < cs.length := by
  induction cs generalizing e r with
  | nil => cases h
  | cons c rest ih =>
    unfold splitAtBrace at h
    by_cases hc : c = rbrace
    · rw [if_pos hc] at h
      obtain ⟨rfl, rfl⟩ := Prod.mk.injEq _ _ _ _ ▸ (Option.some.injEq _ _).mp h
      simp
    · rw [if_neg hc] at h
      cases hs : splitAtBrace rest with
      | none => rw [hs] at h; cases h
      | some p =>
        rw [hs] at h
        obtain ⟨e', r'⟩ := p
        obtain ⟨h1, h2⟩ := Prod.mk.injEq _ _ _ _ ▸ (Option.some.injEq _ _).mp h
        subst h2
        have := ih hs
        simp only [List.length_cons]
        omega

theorem splitAtBrace_decompose {cs e r : List Char} (h : splitAtBrace cs = some (e, r)) :
    cs = e ++ rbrace :: r ∧ rbrace ∉ e := by
  induction cs generalizing e r with
  | nil => cases h
  | cons c rest ih =>
    unfold splitAtBrace at h
    by_cases hc : c = rbrace
    · rw [if_pos hc] at h
      obtain ⟨rfl, rfl⟩ := Prod.mk.injEq _ _ _ _ ▸ (Option.some.injEq _ _).mp h
      subst hc
      exact ⟨rfl, by simp⟩
    · rw [if_neg hc] at h
      cases hs : splitAtBrace rest with
      | none => rw [hs] at h; cases h
      | some p =>
        rw [hs] at h
        obtain ⟨e', r'⟩ := p
        obtain ⟨h1, h2⟩ := Prod.mk.injEq _ _ _ _ ▸ (Option.some.injEq _ _).mp h
        subst h2
        obtain ⟨hd, hm⟩ := ih hs
        subst h1
        refine ⟨by rw [hd]; rfl, ?_⟩
        intro hmem
        rcases List.mem_cons.mp hmem with h | h
        · exact hc h.symm
        · exact hm h

theorem splitAtBrace_append {e post : List Char} (hbr : rbrace ∉ e) :
    splitAtBrace (e ++ rbrace :: post) = some (e, post) := by
  induction e with
  | nil => simp [splitAtBrace]
  | cons c rest ih =>
    have hc : c ≠ rbrace := fun h => hbr (h ▸ List.mem_cons_self c rest)
    have hrest : rbrace ∉ rest := fun h => hbr (List.mem_cons_of_mem c h)
    simp only [List.cons_append, splitAtBrace, if_neg hc, List.append_eq, ih hrest]

/-- The replacement loop of `ResolveVariables` (launchconfig variables
file): scan left to right; at each match resolve the inner expression —
on success substitute the resolution, on failure keep the matched text
verbatim and record the error in `lastErr` (a later failure overwrites an
earlier one).  Returns the rewritten text and the final `lastErr`. -/
def scanVars (ctx : ResolutionContext) (os : OSEnv) : List Char → List Char × Option String
  | [] => ([], none)
  | [c] => ([c], none)
  | c1 :: c2 :: rest =>
    if c1 = '$' ∧ c2 = lbrace then
      match h : splitAtBrace rest with
      | some (e, after) =>
        if e = [] then
          -- the pattern needs a non-empty body: no match starts here
          let r := scanVars ctx os (c2 :: rest)
          (c1 :: r.1, r.2)
        else
          let r := scanVars ctx os after
          match resolveVariable (String.mk e) ctx os with
          | .ok v => (v.data ++ r.1, r.2)
          | .error msg =>
            (c1 :: c2 :: (e ++ rbrace :: r.1), (r.2).orElse (fun _ => some msg))
      | none =>
        let r := scanVars ctx os (c2 :: rest)
        (c1 :: r.1, r.2)
    else
      let r := scanVars ctx os (c2 :: rest)
      (c1 :: r.1, r.2)
termination_by cs => cs.length
decreasing_by
  · simp
  · have := splitAtBrace_length h
    simp only [List.length_cons]
    omega
  · simp
  · simp

/-- `ResolveVariables` (launchconfig variables file): replace all
`$\x7b...\x7d` occurrences, returning the partially substituted text and
the last resolution error. -/
def ResolveVariables (text : String) (ctx : ResolutionContext) (os : OSEnv) :
    String × Option String :=
  let r := scanVars ctx os text.data
  (String.mk r.1, r.2)

/-- The match list of `variablePattern.FindAllStringSubmatch`: the inner
expressions of all matches, left to right. -/
def findRefs : List Char → List String
  | [] => []
  | [_] => []
  | c1 :: c2 :: rest =>
    if c1 = '$' ∧ c2 = lbrace then
      match h : splitAtBrace rest with
      | some (e, after) =>
        if e = [] then findRefs (c2 :: rest)
        else String.mk e :: findRefs after
      | none => findRefs (c2 :: rest)
    else findRefs (c2 :: rest)
termination_by cs => cs.length
decreasing_by
  · simp
  · have := splitAtBrace_length h
    simp only [List.length_cons]
    omega
  · simp
  · simp

/-- `FindRequiredInputs` (launchconfig variables file): the ids of all
`$\x7binput:...\x7d` references, deduplicated in first-occurrence order. -/
def FindRequiredInputs (text : String) : List String :=
  (findRefs text.data).foldl (fun acc expr =>
    if "input:".data.isPrefixOf expr.data then
      let inputID := trimPrefixStr expr "input:"
      if inputID ∈ acc then acc else acc ++ [inputID]
    else acc) []

/-! ### JSON serialization of `JVal` (Go `json.Marshal` output text)

`FindAllRequiredInputsInConfig` scans the `Extra` bag by marshalling it to
JSON text; `renderJVal` produces that text (Go emits map keys in sorted
order — an association list stands for the map, so its order stands for
that; the escaping covers the characters relevant here). -/

def escapeJSONString (s : String) : String :=
  s.data.foldl (fun acc c =>
    if c = '"' then acc ++ "\\\""
    else if c = '\\' then acc ++ "\\\\"
    else if c = '\n' then acc ++ "\\n"
    else if c = '\t' then acc ++ "\\t"
    else if c = '\r' then acc ++ "\\r"
    else if c = '<' then acc ++ "\\u003c"
    else if c = '>' then acc ++ "\\u003e"
    else if c = '&' then acc ++ "\\u0026"
    else acc.push c) ""

mutual

def renderJVal : JVal → String
  | .null => "null"
  | .bool true => "true"
  | .bool false => "false"
  | .num n => toString n
  | .str s => "\"" ++ escapeJSONString s ++ "\""
  | .arr xs => "[" ++ renderArr xs ++ "]"
  | .obj fs => "\x7b" ++ renderObj fs ++ "\x7d"

def renderArr : List JVal → String
  | [] => ""
  | [x] => renderJVal x
  | x :: y :: xs => renderJVal x ++ "," ++ renderArr (y :: xs)

def renderObj : List (String × JVal) → String
  | [] => ""
  | [(k, v)] => "\"" ++ escapeJSONString k ++ "\":" ++ renderJVal v
  | (k, v) :: f :: fs =>
    "\"" ++ escapeJSONString k ++ "\":" ++ renderJVal v ++ "," ++ renderObj (f :: fs)

end

/-! ### `DebugConfiguration` (launchconfig types file) and its JSON codec

The struct's fields in declaration order, with their JSON keys; `Extra`
(`json:"-"`) captures unknown keys.  `*bool` fields are `Option Bool`,
string maps association lists.  The Go field `MIMode` is `miMode` here
(JSON key "MIMode"), `TargetRemote` keeps its JSON key "target". -/

structure PresentationConfig where
  hidden : Bool
  group : String
  order : Int
  deriving DecidableEq, Repr

structure DebugConfiguration where
  type : String
  request : String
  name : String
  program : String
  args : List String
  cwd : String
  env : List (String × String)
  stopOnEntry : Bool
  console : String
  port : Int
  host : String
  processId : Int
  url : String
  webRoot : String
  runtimeExecutable : String
  runtimeArgs : List String
  mode : String
  buildFlags : String
  initCommands : List String
  preRunCommands : List String
  stopCommands : List String
  exitCommands : List String
  attachCommands : List String
  launchCommands : List String
  coreFile : String
  sourceMap : List (List String)
  waitFor : Bool
  stopAtBeginningOfMainSubprogram : Bool
  miMode : String
  miDebuggerPath : String
  targetRemote : String
  python : String
  pythonPath : String
  module : String
  justMyCode : Option Bool
  django : Bool
  jinja : Bool
  redirectOutput : Bool
  debugAdapterPath : String
  sourceMaps : Option Bool
  sourceMapPathOverrides : List (String × String)
  preLaunchTask : String
  postDebugTask : String
  presentation : Option PresentationConfig
  extra : List (String × JVal)
  deriving DecidableEq

/-- The Go zero value of `DebugConfiguration`. -/
def zeroConfig : DebugConfiguration :=
  { type := "", request := "", name := "", program := "", args := [], cwd := "",
    env := [], stopOnEntry := false, console := "", port := 0, host := "",
    processId := 0, url := "", webRoot := "", runtimeExecutable := "",
    runtimeArgs := [], mode := "", buildFlags := "", initCommands := [],
    preRunCommands := [], stopCommands := [], exitCommands := [],
    attachCommands := [], launchCommands := [], coreFile := "", sourceMap := [],
    waitFor := false, stopAtBeginningOfMainSubprogram := false, miMode := "",
    miDebuggerPath := "", targetRemote := "", python := "", pythonPath := "",
    module := "", justMyCode := none, django := false, jinja := false,
    redirectOutput := false, debugAdapterPath := "", sourceMaps := none,
    sourceMapPathOverrides := [], preLaunchTask := "", postDebugTask := "",
    presentation := none, extra := [] }

/-- One `omitempty` struct field of the JSON encoder: omitted when its
value is the zero value. -/
def optField (omitted : Prop) [Decidable omitted] (key : String) (v : JVal) :
    List (String × JVal) :=
  if omitted then [] else [(key, v)]

/-- Encode `[]string`. -/
def strList (l : List String) : JVal := .arr (l.map .str)

/-- Encode `map[string]string`. -/
def strMap (m : List (String × String)) : JVal :=
  .obj (m.map (fun kv => (kv.1, .str kv.2)))

/-- Encode `[][]string`. -/
def strListList (l : List (List String)) : JVal := .arr (l.map strList)

/-- Encode `*PresentationConfig` (three `omitempty` fields). -/
def marshalPresentation (p : PresentationConfig) : JVal :=
  .obj (optField (p.hidden = false) "hidden" (.bool p.hidden) ++
        optField (p.group = "") "group" (.str p.group) ++
        optField (p.order = 0) "order" (.num p.order))

/-- The JSON object produced by marshalling the `Alias` (the struct's
tagged fields, `Extra` excluded): `type`, `request`, `name` always, every
other field under `omitempty`. -/
def marshalAlias (c : DebugConfiguration) : List (String × JVal) :=
  [("type", JVal.str c.type), ("request", JVal.str c.request), ("name", JVal.str c.name)]
  ++ optField (c.program = "") "program" (.str c.program)
  ++ optField (c.args = []) "args" (strList c.args)
  ++ optField (c.cwd = "") "cwd" (.str c.cwd)
  ++ optField (c.env = []) "env" (strMap c.env)
  ++ optField (c.stopOnEntry = false) "stopOnEntry" (.bool c.stopOnEntry)
  ++ optField (c.console = "") "console" (.str c.console)
  ++ optField (c.port = 0) "port" (.num c.port)
  ++ optField (c.host = "") "host" (.str c.host)
  ++ optField (c.processId = 0) "processId" (.num c.processId)
  ++ optField (c.url = "") "url" (.str c.url)
  ++ optField (c.webRoot = "") "webRoot" (.str c.webRoot)
  ++ optField (c.runtimeExecutable = "") "runtimeExecutable" (.str c.runtimeExecutable)
  ++ optField (c.runtimeArgs = []) "runtimeArgs" (strList c.runtimeArgs)
  ++ optField (c.mode = "") "mode" (.str c.mode)
  ++ optField (c.buildFlags = "") "buildFlags" (.str c.buildFlags)
  ++ optField (c.initCommands = []) "initCommands" (strList c.initCommands)
  ++ optField (c.preRunCommands = []) "preRunCommands" (strList c.preRunCommands)
  ++ optField (c.stopCommands = []) "stopCommands" (strList c.stopCommands)
  ++ optField (c.exitCommands = []) "exitCommands" (strList c.exitCommands)
  ++ optField (c.attachCommands = []) "attachCommands" (strList c.attachCommands)
  ++ optField (c.launchCommands = []) "launchCommands" (strList c.launchCommands)
  ++ optField (c.coreFile = "") "coreFile" (.str c.coreFile)
  ++ optField (c.sourceMap = []) "sourceMap" (strListList c.sourceMap)
  ++ optField (c.waitFor = false) "waitFor" (.bool c.waitFor)
  ++ optField (c.stopAtBeginningOfMainSubprogram = false)
       "stopAtBeginningOfMainSubprogram" (.bool c.stopAtBeginningOfMainSubprogram)
  ++ optField (c.miMode = "") "MIMode" (.str c.miMode)
  ++ optField (c.miDebuggerPath = "") "miDebuggerPath" (.str c.miDebuggerPath)
  ++ optField (c.targetRemote = "") "target" (.str c.targetRemote)
  ++ optField (c.python = "") "python" (.str c.python)
  ++ optField (c.pythonPath = "") "pythonPath" (.str c.pythonPath)
  ++ optField (c.module = "") "module" (.str c.module)
  ++ optField (c.justMyCode = none) "justMyCode" (.bool (c.justMyCode.getD false))
  ++ optField (c.django = false) "django" (.bool c.django)
  ++ optField (c.jinja = false) "jinja" (.bool c.jinja)
  ++ optField (c.redirectOutput = false) "redirectOutput" (.bool c.redirectOutput)
  ++ optField (c.debugAdapterPath = "") "debugAdapterPath" (.str c.debugAdapterPath)
  ++ optField (c.sourceMaps = none) "sourceMaps" (.bool (c.sourceMaps.getD false))
  ++ optField (c.sourceMapPathOverrides = []) "sourceMapPathOverrides"
       (strMap c.sourceMapPathOverrides)
  ++ optField (c.preLaunchTask = "") "preLaunchTask" (.str c.preLaunchTask)
  ++ optField (c.postDebugTask = "") "postDebugTask" (.str c.postDebugTask)
  ++ optField (c.presentation = none) "presentation"
       ((c.presentation.map marshalPresentation).getD .null)

/-- The `knownFields` set of `DebugConfiguration.UnmarshalJSON`, copied
from the source. -/
def knownFields : List String :=
  ["type", "request", "name",
   "program", "args", "cwd", "env",
   "stopOnEntry", "console",
   "port", "host", "processId",
   "url", "webRoot",
   "runtimeExecutable", "runtimeArgs",
   "mode", "buildFlags",
   "initCommands", "preRunCommands", "stopCommands",
   "exitCommands", "attachCommands", "launchCommands",
   "coreFile", "sourceMap", "waitFor",
   "stopAtBeginningOfMainSubprogram", "MIMode",
   "miDebuggerPath", "target",
   "python", "pythonPath", "module", "justMyCode",
   "django", "jinja", "redirectOutput",
   "debugAdapterPath",
   "sourceMaps", "sourceMapPathOverrides",
   "preLaunchTask", "postDebugTask",
   "presentation"]

/-- `json.Marshal`'s merge of `Extra` into the alias object (`m[k] = v`
for each extra key): the resulting map, with the surviving alias entries
first.  (The concrete byte order — Go sorts map keys — does not affect the
mapping an association list denotes.) -/
def mergeExtra (base extra : List (String × JVal)) : List (String × JVal) :=
  base.filter (fun kv => extra.all (fun e => e.1 != kv.1)) ++ extra

/-- `DebugConfiguration.MarshalJSON`: marshal the alias; if `Extra` is
non-empty, merge it into the object. -/
def marshalJSON (c : DebugConfiguration) : JVal :=
  let data := marshalAlias c
  if c.extra = [] then .obj data
  else .obj (mergeExtra data c.extra)

/-! Decoding (`json.Unmarshal` into the alias struct): each present key is
decoded into the matching field; an absent key leaves the zero value; a
`null` value is a no-op; a type mismatch is an error.  Keys are matched
exactly here — Go would also accept a case-insensitive match, which never
fires on the exactly-keyed objects built in this development. -/

/-- Decode each element of a JSON array, failing on the first mismatch
(as `json.Unmarshal` does for slices). -/
def decodeAll {α β : Type} (f : α → Option β) : List α → Option (List β)
  | [] => some []
  | x :: xs =>
    match f x with
    | none => none
    | some y => (decodeAll f xs).map (fun ys => y :: ys)

/-- Decode a JSON value into a `string` field (`null` keeps the zero). -/
def asStr : JVal → Option String
  | .str s => some s
  | .null => some ""
  | _ => none

def getStr (raw : List (String × JVal)) (key : String) : Option String :=
  match GoMap.lookup key raw with
  | none => some ""
  | some .null => some ""
  | some (.str s) => some s
  | some _ => none

def getBool (raw : List (String × JVal)) (key : String) : Option Bool :=
  match GoMap.lookup key raw with
  | none => some false
  | some .null => some false
  | some (.bool b) => some b
  | some _ => none

def getInt (raw : List (String × JVal)) (key : String) : Option Int :=
  match GoMap.lookup key raw with
  | none => some 0
  | some .null => some 0
  | some (.num n) => some n
  | some _ => none

def getStrList (raw : List (String × JVal)) (key : String) : Option (List String) :=
  match GoMap.lookup key raw with
  | none => some []
  | some .null => some []
  | some (.arr xs) => decodeAll asStr xs
  | some _ => none

/-- Decode one `map[string]string` entry. -/
def decodePair (kv : String × JVal) : Option (String × String) :=
  (asStr kv.2).map (fun s => (kv.1, s))

def getStrMap (raw : List (String × JVal)) (key : String) :
    Option (List (String × String)) :=
  match GoMap.lookup key raw with
  | none => some []
  | some .null => some []
  | some (.obj fs) => decodeAll decodePair fs
  | some _ => none

def asStrList : JVal → Option (List String)
  | .arr xs => decodeAll asStr xs
  | .null => some []
  | _ => none

def getStrListList (raw : List (String × JVal)) (key : String) :
    Option (List (List String)) :=
  match GoMap.lookup key raw with
  | none => some []
  | some .null => some []
  | some (.arr xs) => decodeAll asStrList xs
  | some _ => none

def getOptBool (raw : List (String × JVal)) (key : String) : Option (Option Bool) :=
  match GoMap.lookup key raw with
  | none => some none
  | some .null => some none
  | some (.bool b) => some (some b)
  | some _ => none

def decodePresentation (fs : List (String × JVal)) : Option PresentationConfig := do
  let hidden ← getBool fs "hidden"
  let group ← getStr fs "group"
  let order ← getInt fs "order"
  some { hidden := hidden, group := group, order := order }

def getPresentation (raw : List (String × JVal)) (key : String) :
    Option (Option PresentationConfig) :=
  match GoMap.lookup key raw with
  | none => some none
  | some .null => some none
  | some (.obj fs) => (decodePresentation fs).map some
  | some _ => none

/-- `json.Unmarshal(data, &alias)` decodes every tagged field of the raw
object into the alias struct (`Extra` is `json:"-"` and stays untouched).
The decoding is staged over four helpers purely to keep elaboration small;
together they read the struct's fields in declaration order. -/
def unmarshalAlias1 (raw : List (String × JVal)) (c : DebugConfiguration) :
    Option DebugConfiguration := do
  let type_ ← getStr raw "type"
  let request ← getStr raw "request"
  let name ← getStr raw "name"
  let program ← getStr raw "program"
  let args ← getStrList raw "args"
  let cwd ← getStr raw "cwd"
  let env ← getStrMap raw "env"
  let stopOnEntry ← getBool raw "stopOnEntry"
  let console ← getStr raw "console"
  let port ← getInt raw "port"
  let host ← getStr raw "host"
  some { c with
    type := type_
    request := request
    name := name
    program := program
    args := args
    cwd := cwd
    env := env
    stopOnEntry := stopOnEntry
    console := console
    port := port
    host := host }

def unmarshalAlias2 (raw : List (String × JVal)) (c : DebugConfiguration) :
    Option DebugConfiguration := do
  let processId ← getInt raw "processId"
  let url ← getStr raw "url"
  let webRoot ← getStr raw "webRoot"
  let runtimeExecutable ← getStr raw "runtimeExecutable"
  let runtimeArgs ← getStrList raw "runtimeArgs"
  let mode ← getStr raw "mode"
  let buildFlags ← getStr raw "buildFlags"
  let initCommands ← getStrList raw "initCommands"
  let preRunCommands ← getStrList raw "preRunCommands"
  let stopCommands ← getStrList raw "stopCommands"
  let exitCommands ← getStrList raw "exitCommands"
  some { c with
    processId := processId
    url := url
    webRoot := webRoot
    runtimeExecutable := runtimeExecutable
    runtimeArgs := runtimeArgs
    mode := mode
    buildFlags := buildFlags
    initCommands := initCommands
    preRunCommands := preRunCommands
    stopCommands := stopCommands
    exitCommands := exitCommands }

def unmarshalAlias3 (raw : List (String × JVal)) (c : DebugConfiguration) :
    Option DebugConfiguration := do
  let attachCommands ← getStrList raw "attachCommands"
  let launchCommands ← getStrList raw "launchCommands"
  let coreFile ← getStr raw "coreFile"
  let sourceMap ← getStrListList raw "sourceMap"
  let waitFor ← getBool raw "waitFor"
  let stopAtBeginningOfMainSubprogram ← getBool raw "stopAtBeginningOfMainSubprogram"
  let miMode ← getStr raw "MIMode"
  let miDebuggerPath ← getStr raw "miDebuggerPath"
  let targetRemote ← getStr raw "target"
  let python ← getStr raw "python"
  let pythonPath ← getStr raw "pythonPath"
  some { c with
    attachCommands := attachCommands
    launchCommands := launchCommands
    coreFile := coreFile
    sourceMap := sourceMap
    waitFor := waitFor
    stopAtBeginningOfMainSubprogram := stopAtBeginningOfMainSubprogram
    miMode := miMode
    miDebuggerPath := miDebuggerPath
    targetRemote := targetRemote
    python := python
    pythonPath := pythonPath }

def unmarshalAlias4 (raw : List (String × JVal)) (c : DebugConfiguration) :
    Option DebugConfiguration := do
  let module ← getStr raw "module"
  let justMyCode ← getOptBool raw "justMyCode"
  let django ← getBool raw "django"
  let jinja ← getBool raw "jinja"
  let redirectOutput ← getBool raw "redirectOutput"
  let debugAdapterPath ← getStr raw "debugAdapterPath"
  let sourceMaps ← getOptBool raw "sourceMaps"
  let sourceMapPathOverrides ← getStrMap raw "sourceMapPathOverrides"
  let preLaunchTask ← getStr raw "preLaunchTask"
  let postDebugTask ← getStr raw "postDebugTask"
  let presentation ← getPresentation raw "presentation"
  some { c with
    module := module
    justMyCode := justMyCode
    django := django
    jinja := jinja
    redirectOutput := redirectOutput
    debugAdapterPath := debugAdapterPath
    sourceMaps := sourceMaps
    sourceMapPathOverrides := sourceMapPathOverrides
    preLaunchTask := preLaunchTask
    postDebugTask := postDebugTask
    presentation := presentation }

def unmarshalAlias (raw : List (String × JVal)) : Option DebugConfiguration := do
  let c ← unmarshalAlias1 raw zeroConfig
  let c ← unmarshalAlias2 raw c
  let c ← unmarshalAlias3 raw c
  let c ← unmarshalAlias4 raw c
  some c

/-- `DebugConfiguration.UnmarshalJSON`: decode the alias from the raw
object, then capture every key outside `knownFields` into `Extra`. -/
def unmarshalJSON (v : JVal) : Option DebugConfiguration :=
  match v with
  | .obj raw => do
    let c ← unmarshalAlias raw
    some { c with extra := raw.filter (fun kv => !(knownFields.contains kv.1)) }
  | _ => none

/-! ### Round-trip lemmas (C7) -/

@[simp] theorem lookup_optField_append_self (k : String) (p : Prop) [Decidable p]
    (v : JVal) (rest : List (String × JVal)) :
    GoMap.lookup k (optField p k v ++ rest) =
      if p then GoMap.lookup k rest else some v := by
  unfold optField
  split <;> simp [GoMap.lookup]

@[simp] theorem lookup_optField_append_ne {key k : String} (h : key ≠ k) (p : Prop)
    [Decidable p] (v : JVal) (rest : List (String × JVal)) :
    GoMap.lookup k (optField p key v ++ rest) = GoMap.lookup k rest := by
  unfold optField
  split <;> simp [GoMap.lookup, h]

@[simp] theorem lookup_optField_self (k : String) (p : Prop) [Decidable p] (v : JVal) :
    GoMap.lookup k (optField p k v) = if p then none else some v := by
  unfold optField
  split <;> simp [GoMap.lookup]

@[simp] theorem lookup_optField_ne {key k : String} (h : key ≠ k) (p : Prop)
    [Decidable p] (v : JVal) :
    GoMap.lookup k (optField p key v) = none := by
  unfold optField
  split <;> simp [GoMap.lookup, h]

theorem optField_key {p : Prop} [Decidable p] {key : String} {v : JVal}
    {kv : String × JVal} (h : kv ∈ optField p key v) : kv.1 = key := by
  unfold optField at h
  split at h
  · cases h
  · rw [List.mem_singleton.mp h]

theorem keys_of_append {l1 l2 : List (String × JVal)} {K : List String}
    (h1 : ∀ kv ∈ l1, kv.1 ∈ K) (h2 : ∀ kv ∈ l2, kv.1 ∈ K) :
    ∀ kv ∈ l1 ++ l2, kv.1 ∈ K := by
  intro kv h
  rcases List.mem_append.mp h with h | h
  · exact h1 kv h
  · exact h2 kv h

/-- Every key the alias encoder emits is a known field name. -/
theorem keys_of_optField {p : Prop} [Decidable p] {key : String} {v : JVal}
    {K : List String} (hk : key ∈ K) : ∀ kv ∈ optField p key v, kv.1 ∈ K := by
  intro kv h
  rw [optField_key h]
  exact hk

theorem marshalAlias_keys (c : DebugConfiguration) :
    ∀ kv ∈ marshalAlias c, kv.1 ∈ knownFields := by
  unfold marshalAlias
  repeat' apply keys_of_append
  all_goals
    first
    | (apply keys_of_optField
       decide)
    | (intro kv h
       simp only [List.mem_cons, List.mem_singleton, List.not_mem_nil, or_false] at h
       rcases h with rfl | rfl | rfl <;> simp [knownFields])

theorem decodeAll_cons {α β : Type} (f : α → Option β) (x : α) (xs : List α) :
    decodeAll f (x :: xs) =
      match f x with
      | none => none
      | some y => (decodeAll f xs).map (fun ys => y :: ys) := rfl

@[simp] theorem decodeAll_asStr_map (l : List String) :
    decodeAll asStr (l.map JVal.str) = some l := by
  induction l with
  | nil => rfl
  | cons x xs ih =>
    rw [List.map_cons, decodeAll_cons, show asStr (JVal.str x) = some x from rfl, ih]
    rfl

@[simp] theorem decodeAll_decodePair_map (m : List (String × String)) :
    decodeAll decodePair (m.map (fun kv => (kv.1, JVal.str kv.2))) = some m := by
  induction m with
  | nil => rfl
  | cons x xs ih =>
    obtain ⟨k, v⟩ := x
    rw [List.map_cons, decodeAll_cons,
      show decodePair (k, JVal.str v) = some (k, v) from rfl, ih]
    rfl

@[simp] theorem decodeAll_asStrList_map (l : List (List String)) :
    decodeAll asStrList (l.map strList) = some l := by
  induction l with
  | nil => rfl
  | cons x xs ih =>
    rw [List.map_cons, decodeAll_cons,
      show asStrList (strList x) = some x by
        show decodeAll asStr (x.map JVal.str) = some x
        exact decodeAll_asStr_map x,
      ih]
    rfl

theorem decode_marshalPresentation (p : PresentationConfig) :
    (match marshalPresentation p with
     | .obj fs => (decodePresentation fs).map some
     | _ => none) = some (some p) := by
  obtain ⟨ph, pg, po⟩ := p
  by_cases h1 : ph = false <;> by_cases h2 : pg = "" <;> by_cases h3 : po = 0 <;>
    simp [marshalPresentation, decodePresentation, getBool, getStr, getInt,
      h1, h2, h3]

theorem alias_get_type (c : DebugConfiguration) (rest : List (String × JVal))
    (hrest : GoMap.lookup "type" rest = none) :
    getStr (marshalAlias c ++ rest) "type" = some c.type := by
  simp [getStr, marshalAlias, List.append_assoc, hrest]

theorem alias_get_request (c : DebugConfiguration) (rest : List (String × JVal))
    (hrest : GoMap.lookup "request" rest = none) :
    getStr (marshalAlias c ++ rest) "request" = some c.request := by
  simp [getStr, marshalAlias, List.append_assoc, hrest]

theorem alias_get_name (c : DebugConfiguration) (rest : List (String × JVal))
    (hrest : GoMap.lookup "name" rest = none) :
    getStr (marshalAlias c ++ rest) "name" = some c.name := by
  simp [getStr, marshalAlias, List.append_assoc, hrest]

theorem alias_get_program (c : DebugConfiguration) (rest : List (String × JVal))
    (hrest : GoMap.lookup "program" rest = none) :
    getStr (marshalAlias c ++ rest) "program" = some c.program := by
  by_cases h : c.program = "" <;>
    simp [getStr, marshalAlias, List.append_assoc, h, hrest]

theorem alias_get_args (c : DebugConfiguration) (rest : List (String × JVal))
    (hrest : GoMap.lookup "args" rest = none) :
    getStrList (marshalAlias c ++ rest) "args" = some c.args := by
  by_cases h : c.args = [] <;>
    simp [getStrList, strList, marshalAlias, List.append_assoc, h, hrest]

theorem alias_get_cwd (c : DebugConfiguration) (rest : List (String × JVal))
    (hrest : GoMap.lookup "cwd" rest = none) :
    getStr (marshalAlias c ++ rest) "cwd" = some c.cwd := by
  by_cases h : c.cwd = "" <;>
    simp [getStr, marshalAlias, List.append_assoc, h, hrest]

theorem alias_get_env (c : DebugConfiguration) (rest : List (String × JVal))
    (hrest : GoMap.lookup "env" rest = none) :
    getStrMap (marshalAlias c ++ rest) "env" = some c.env := by
  by_cases h : c.env = [] <;>
    simp [getStrMap, strMap, marshalAlias, List.append_assoc, h, hrest]

theorem alias_get_stopOnEntry (c : DebugConfiguration) (rest : List (String × JVal))
    (hrest : GoMap.lookup "stopOnEntry" rest = none) :
    getBool (marshalAlias c ++ rest) "stopOnEntry" = some c.stopOnEntry := by
  by_cases h : c.stopOnEntry = false <;>
    simp [getBool, marshalAlias, List.append_assoc, h, hrest]

theorem alias_get_console (c : DebugConfiguration) (rest : List (String × JVal))
    (hrest : GoMap.lookup "console" rest = none) :
    getStr (marshalAlias c ++ rest) "console" = some c.console := by
  by_cases h : c.console = "" <;>
    simp [getStr, marshalAlias, List.append_assoc, h, hrest]

theorem alias_get_port (c : DebugConfiguration) (rest : List (String × JVal))
    (hrest : GoMap.lookup "port" rest = none) :
    getInt (marshalAlias c ++ rest) "port" = some c.port := by
  by_cases h : c.port = 0 <;>
    simp [getInt, marshalAlias, List.append_assoc, h, hrest]

theorem alias_get_host (c : DebugConfiguration) (rest : List (String × JVal))
    (hrest : GoMap.lookup "host" rest = none) :
    getStr (marshalAlias c ++ rest) "host" = some c.host := by
  by_cases h : c.host = "" <;>
    simp [getStr, marshalAlias, List.append_assoc, h, hrest]

theorem alias_get_processId (c : DebugConfiguration) (rest : List (String × JVal))
    (hrest : GoMap.lookup "processId" rest = none) :
    getInt (marshalAlias c ++ rest) "processId" = some c.processId := by
  by_cases h : c.processId = 0 <;>
    simp [getInt, marshalAlias, List.append_assoc, h, hrest]

theorem alias_get_url (c : DebugConfiguration) (rest : List (String × JVal))
    (hrest : GoMap.lookup "url" rest = none) :
    getStr (marshalAlias c ++ rest) "url" = some c.url := by
  by_cases h : c.url = "" <;>
    simp [getStr, marshalAlias, List.append_assoc, h, hrest]

theorem alias_get_webRoot (c : DebugConfiguration) (rest : List (String × JVal))
    (hrest : GoMap.lookup "webRoot" rest = none) :
    getStr (marshalAlias c ++ rest) "webRoot" = some c.webRoot := by
  by_cases h : c.webRoot = "" <;>
    simp [getStr, marshalAlias, List.append_assoc, h, hrest]

theorem alias_get_runtimeExecutable (c : DebugConfiguration) (rest : List (String × JVal))
    (hrest : GoMap.lookup "runtimeExecutable" rest = none) :
    getStr (marshalAlias c ++ rest) "runtimeExecutable" = some c.runtimeExecutable := by
  by_cases h : c.runtimeExecutable = "" <;>
    simp [getStr, marshalAlias, List.append_assoc, h, hrest]

theorem alias_get_runtimeArgs (c : DebugConfiguration) (rest : List (String × JVal))
    (hrest : GoMap.lookup "runtimeArgs" rest = none) :
    getStrList (marshalAlias c ++ rest) "runtimeArgs" = some c.runtimeArgs := by
  by_cases h : c.runtimeArgs = [] <;>
    simp [getStrList, strList, marshalAlias, List.append_assoc, h, hrest]

theorem alias_get_mode (c : DebugConfiguration) (rest : List (String × JVal))
    (hrest : GoMap.lookup "mode" rest = none) :
    getStr (marshalAlias c ++ rest) "mode" = some c.mode := by
  by_cases h : c.mode = "" <;>
    simp [getStr, marshalAlias, List.append_assoc, h, hrest]

theorem alias_get_buildFlags (c : DebugConfiguration) (rest : List (String × JVal))
    (hrest : GoMap.lookup "buildFlags" rest = none) :
    getStr (marshalAlias c ++ rest) "buildFlags" = some c.buildFlags := by
  by_cases h : c.buildFlags = "" <;>
    simp [getStr, marshalAlias, List.append_assoc, h, hrest]

theorem alias_get_initCommands (c : DebugConfiguration) (rest : List (String × JVal))
    (hrest : GoMap.lookup "initCommands" rest = none) :
    getStrList (marshalAlias c ++ rest) "initCommands" = some c.initCommands := by
  by_cases h : c.initCommands = [] <;>
    simp [getStrList, strList, marshalAlias, List.append_assoc, h, hrest]

theorem alias_get_preRunCommands (c : DebugConfiguration) (rest : List (String × JVal))
    (hrest : GoMap.lookup "preRunCommands" rest = none) :
    getStrList (marshalAlias c ++ rest) "preRunCommands" = some c.preRunCommands := by
  by_cases h : c.preRunCommands = [] <;>
    simp [getStrList, strList, marshalAlias, List.append_assoc, h, hrest]

theorem alias_get_stopCommands (c : DebugConfiguration) (rest : List (String × JVal))
    (hrest : GoMap.lookup "stopCommands" rest = none) :
    getStrList (marshalAlias c ++ rest) "stopCommands" = some c.stopCommands := by
  by_cases h : c.stopCommands = [] <;>
    simp [getStrList, strList, marshalAlias, List.append_assoc, h, hrest]

theorem alias_get_exitCommands (c : DebugConfiguration) (rest : List (String × JVal))
    (hrest : GoMap.lookup "exitCommands" rest = none) :
    getStrList (marshalAlias c ++ rest) "exitCommands" = some c.exitCommands := by
  by_cases h : c.exitCommands = [] <;>
    simp [getStrList, strList, marshalAlias, List.append_assoc, h, hrest]

theorem alias_get_attachCommands (c : DebugConfiguration) (rest : List (String × JVal))
    (hrest : GoMap.lookup "attachCommands" rest = none) :
    getStrList (marshalAlias c ++ rest) "attachCommands" = some c.attachCommands := by
  by_cases h : c.attachCommands = [] <;>
    simp [getStrList, strList, marshalAlias, List.append_assoc, h, hrest]

theorem alias_get_launchCommands (c : DebugConfiguration) (rest : List (String × JVal))
    (hrest : GoMap.lookup "launchCommands" rest = none) :
    getStrList (marshalAlias c ++ rest) "launchCommands" = some c.launchCommands := by
  by_cases h : c.launchCommands = [] <;>
    simp [getStrList, strList, marshalAlias, List.append_assoc, h, hrest]

theorem alias_get_coreFile (c : DebugConfiguration) (rest : List (String × JVal))
    (hrest : GoMap.lookup "coreFile" rest = none) :
    getStr (marshalAlias c ++ rest) "coreFile" = some c.coreFile := by
  by_cases h : c.coreFile = "" <;>
    simp [getStr, marshalAlias, List.append_assoc, h, hrest]

theorem alias_get_sourceMap (c : DebugConfiguration) (rest : List (String × JVal))
    (hrest : GoMap.lookup "sourceMap" rest = none) :
    getStrListList (marshalAlias c ++ rest) "sourceMap" = some c.sourceMap := by
  by_cases h : c.sourceMap = [] <;>
    simp [getStrListList, strListList, marshalAlias, List.append_assoc, h, hrest]

theorem alias_get_waitFor (c : DebugConfiguration) (rest : List (String × JVal))
    (hrest : GoMap.lookup "waitFor" rest = none) :
    getBool (marshalAlias c ++ rest) "waitFor" = some c.waitFor := by
  by_cases h : c.waitFor = false <;>
    simp [getBool, marshalAlias, List.append_assoc, h, hrest]

theorem alias_get_stopAtMain (c : DebugConfiguration) (rest : List (String × JVal))
    (hrest : GoMap.lookup "stopAtBeginningOfMainSubprogram" rest = none) :
    getBool (marshalAlias c ++ rest) "stopAtBeginningOfMainSubprogram" =
      some c.stopAtBeginningOfMainSubprogram := by
  by_cases h : c.stopAtBeginningOfMainSubprogram = false <;>
    simp [getBool, marshalAlias, List.append_assoc, h, hrest]

theorem alias_get_miMode (c : DebugConfiguration) (rest : List (String × JVal))
    (hrest : GoMap.lookup "MIMode" rest = none) :
    getStr (marshalAlias c ++ rest) "MIMode" = some c.miMode := by
  by_cases h : c.miMode = "" <;>
    simp [getStr, marshalAlias, List.append_assoc, h, hrest]

theorem alias_get_miDebuggerPath (c : DebugConfiguration) (rest : List (String × JVal))
    (hrest : GoMap.lookup "miDebuggerPath" rest = none) :
    getStr (marshalAlias c ++ rest) "miDebuggerPath" = some c.miDebuggerPath := by
  by_cases h : c.miDebuggerPath = "" <;>
    simp [getStr, marshalAlias, List.append_assoc, h, hrest]

theorem alias_get_target (c : DebugConfiguration) (rest : List (String × JVal))
    (hrest : GoMap.lookup "target" rest = none) :
    getStr (marshalAlias c ++ rest) "target" = some c.targetRemote := by
  by_cases h : c.targetRemote = "" <;>
    simp [getStr, marshalAlias, List.append_assoc, h, hrest]

theorem alias_get_python (c : DebugConfiguration) (rest : List (String × JVal))
    (hrest : GoMap.lookup "python" rest = none) :
    getStr (marshalAlias c ++ rest) "python" = some c.python := by
  by_cases h : c.python = "" <;>
    simp [getStr, marshalAlias, List.append_assoc, h, hrest]

theorem alias_get_pythonPath (c : DebugConfiguration) (rest : List (String × JVal))
    (hrest : GoMap.lookup "pythonPath" rest = none) :
    getStr (marshalAlias c ++ rest) "pythonPath" = some c.pythonPath := by
  by_cases h : c.pythonPath = "" <;>
    simp [getStr, marshalAlias, List.append_assoc, h, hrest]

theorem alias_get_module (c : DebugConfiguration) (rest : List (String × JVal))
    (hrest : GoMap.lookup "module" rest = none) :
    getStr (marshalAlias c ++ rest) "module" = some c.module := by
  by_cases h : c.module = "" <;>
    simp [getStr, marshalAlias, List.append_assoc, h, hrest]

theorem alias_get_justMyCode (c : DebugConfiguration) (rest : List (String × JVal))
    (hrest : GoMap.lookup "justMyCode" rest = none) :
    getOptBool (marshalAlias c ++ rest) "justMyCode" = some c.justMyCode := by
  cases h : c.justMyCode with
  | none => simp [getOptBool, marshalAlias, List.append_assoc, h, hrest]
  | some b => simp [getOptBool, marshalAlias, List.append_assoc, h, hrest]

theorem alias_get_django (c : DebugConfiguration) (rest : List (String × JVal))
    (hrest : GoMap.lookup "django" rest = none) :
    getBool (marshalAlias c ++ rest) "django" = some c.django := by
  by_cases h : c.django = false <;>
    simp [getBool, marshalAlias, List.append_assoc, h, hrest]

theorem alias_get_jinja (c : DebugConfiguration) (rest : List (String × JVal))
    (hrest : GoMap.lookup "jinja" rest = none) :
    getBool (marshalAlias c ++ rest) "jinja" = some c.jinja := by
  by_cases h : c.jinja = false <;>
    simp [getBool, marshalAlias, List.append_assoc, h, hrest]

theorem alias_get_redirectOutput (c : DebugConfiguration) (rest : List (String × JVal))
    (hrest : GoMap.lookup "redirectOutput" rest = none) :
    getBool (marshalAlias c ++ rest) "redirectOutput" = some c.redirectOutput := by
  by_cases h : c.redirectOutput = false <;>
    simp [getBool, marshalAlias, List.append_assoc, h, hrest]

theorem alias_get_debugAdapterPath (c : DebugConfiguration) (rest : List (String × JVal))
    (hrest : GoMap.lookup "debugAdapterPath" rest = none) :
    getStr (marshalAlias c ++ rest) "debugAdapterPath" = some c.debugAdapterPath := by
  by_cases h : c.debugAdapterPath = "" <;>
    simp [getStr, marshalAlias, List.append_assoc, h, hrest]

theorem alias_get_sourceMaps (c : DebugConfiguration) (rest : List (String × JVal))
    (hrest : GoMap.lookup "sourceMaps" rest = none) :
    getOptBool (marshalAlias c ++ rest) "sourceMaps" = some c.sourceMaps := by
  cases h : c.sourceMaps with
  | none => simp [getOptBool, marshalAlias, List.append_assoc, h, hrest]
  | some b => simp [getOptBool, marshalAlias, List.append_assoc, h, hrest]

theorem alias_get_sourceMapPathOverrides (c : DebugConfiguration)
    (rest : List (String × JVal))
    (hrest : GoMap.lookup "sourceMapPathOverrides" rest = none) :
    getStrMap (marshalAlias c ++ rest) "sourceMapPathOverrides" =
      some c.sourceMapPathOverrides := by
  by_cases h : c.sourceMapPathOverrides = [] <;>
    simp [getStrMap, strMap, marshalAlias, List.append_assoc, h, hrest]

theorem alias_get_preLaunchTask (c : DebugConfiguration) (rest : List (String × JVal))
    (hrest : GoMap.lookup "preLaunchTask" rest = none) :
    getStr (marshalAlias c ++ rest) "preLaunchTask" = some c.preLaunchTask := by
  by_cases h : c.preLaunchTask = "" <;>
    simp [getStr, marshalAlias, List.append_assoc, h, hrest]

theorem alias_get_postDebugTask (c : DebugConfiguration) (rest : List (String × JVal))
    (hrest : GoMap.lookup "postDebugTask" rest = none) :
    getStr (marshalAlias c ++ rest) "postDebugTask" = some c.postDebugTask := by
  by_cases h : c.postDebugTask = "" <;>
    simp [getStr, marshalAlias, List.append_assoc, h, hrest]

theorem alias_get_presentation (c : DebugConfiguration) (rest : List (String × JVal))
    (hrest : GoMap.lookup "presentation" rest = none) :
    getPresentation (marshalAlias c ++ rest) "presentation" = some c.presentation := by
  cases h : c.presentation with
  | none => simp [getPresentation, marshalAlias, List.append_assoc, h, hrest]
  | some p =>
    have hd := decode_marshalPresentation p
    simp only [marshalPresentation, List.append_assoc] at hd
    rw [Option.map_eq_some'] at hd
    obtain ⟨a, ha, hab⟩ := hd
    obtain rfl : a = p := by injection hab
    simp [getPresentation, marshalAlias, List.append_assoc, h, hrest,
      marshalPresentation, ha]

/-! ### The replacement loop's observable behaviour (C10)

`variablePattern` can match only at a `$` followed by an open brace, so a
stretch of text without `$` passes through unchanged; at a match the loop
substitutes the resolution on success, and on failure keeps the matched
text verbatim while recording the error (a later failure overwrites an
earlier one). -/

theorem scanVars_cons (ctx : ResolutionContext) (os : OSEnv) {c : Char}
    (cs : List Char) (h : c ≠ '$') :
    scanVars ctx os (c :: cs) =
      (c :: (scanVars ctx os cs).1, (scanVars ctx os cs).2) := by
  cases cs with
  | nil => simp [scanVars]
  | cons c2 rest =>
    rw [scanVars]
    simp [h]

theorem scanVars_append (ctx : ResolutionContext) (os : OSEnv) (pre cs : List Char)
    (hpre : '$' ∉ pre) :
    scanVars ctx os (pre ++ cs) =
      (pre ++ (scanVars ctx os cs).1, (scanVars ctx os cs).2) := by
  induction pre with
  | nil => simp
  | cons c p ih =>
    have hc : c ≠ '$' := fun h => hpre (h ▸ List.mem_cons_self c p)
    have hp : '$' ∉ p := fun h => hpre (List.mem_cons_of_mem c h)
    rw [List.cons_append, scanVars_cons ctx os (p ++ cs) hc, ih hp]
    simp

theorem scanVars_nodollar (ctx : ResolutionContext) (os : OSEnv) (cs : List Char)
    (h : '$' ∉ cs) : scanVars ctx os cs = (cs, none) := by
  have := scanVars_append ctx os cs [] h
  simpa [scanVars] using this

theorem scanVars_match_ok (ctx : ResolutionContext) (os : OSEnv) {e : List Char}
    {v : String} (post : List Char)
    (hok : resolveVariable (String.mk e) ctx os = .ok v)
    (he : e ≠ []) (hbr : rbrace ∉ e) :
    scanVars ctx os ('$' :: lbrace :: (e ++ rbrace :: post)) =
      (v.data ++ (scanVars ctx os post).1, (scanVars ctx os post).2) := by
  rw [scanVars, if_pos (⟨rfl, rfl⟩ : '$' = '$' ∧ lbrace = lbrace)]
  split
  case _ e1 after hsp =>
    rw [splitAtBrace_append hbr] at hsp
    obtain ⟨rfl, rfl⟩ := Prod.mk.injEq _ _ _ _ ▸ (Option.some.injEq _ _).mp hsp
    rw [if_neg he, hok]
  case _ hsp =>
    rw [splitAtBrace_append hbr] at hsp
    cases hsp

theorem scanVars_match_err (ctx : ResolutionContext) (os : OSEnv) {e : List Char}
    {msg : String} (post : List Char)
    (herr : resolveVariable (String.mk e) ctx os = .error msg)
    (he : e ≠ []) (hbr : rbrace ∉ e) :
    scanVars ctx os ('$' :: lbrace :: (e ++ rbrace :: post)) =
      ('$' :: lbrace :: (e ++ rbrace :: (scanVars ctx os post).1),
       ((scanVars ctx os post).2).orElse (fun _ => some msg)) := by
  rw [scanVars, if_pos (⟨rfl, rfl⟩ : '$' = '$' ∧ lbrace = lbrace)]
  split
  case _ e1 after hsp =>
    rw [splitAtBrace_append hbr] at hsp
    obtain ⟨rfl, rfl⟩ := Prod.mk.injEq _ _ _ _ ▸ (Option.some.injEq _ _).mp hsp
    rw [if_neg he, herr]
  case _ hsp =>
    rw [splitAtBrace_append hbr] at hsp
    cases hsp

/-- **C10.**  On a text holding three variable references — the first
failing, the second resolving, the third failing — `ResolveVariables`
substitutes the reference that resolves, keeps both failing references
verbatim in the returned string, and returns the error of the *last*
failing reference alongside that partially substituted string: it neither
aborts at the first failure nor leaves the text untouched. -/
theorem resolveVariables_partial_substitution
    (ctx : ResolutionContext) (os : OSEnv)
    (p1 p2 p3 p4 e1 e2 e3 : List Char) (v : String) (msg1 msg3 : String)
    (h1 : '$' ∉ p1) (h2 : '$' ∉ p2) (h3 : '$' ∉ p3) (h4 : '$' ∉ p4)
    (he1 : e1 ≠ []) (hbr1 : rbrace ∉ e1)
    (he2 : e2 ≠ []) (hbr2 : rbrace ∉ e2)
    (he3 : e3 ≠ []) (hbr3 : rbrace ∉ e3)
    (herr1 : resolveVariable (String.mk e1) ctx os = .error msg1)
    (hok : resolveVariable (String.mk e2) ctx os = .ok v)
    (herr3 : resolveVariable (String.mk e3) ctx os = .error msg3) :
    ResolveVariables (String.mk (p1 ++ '$' :: lbrace :: (e1 ++ rbrace ::
      (p2 ++ '$' :: lbrace :: (e2 ++ rbrace ::
        (p3 ++ '$' :: lbrace :: (e3 ++ rbrace :: p4))))))) ctx os =
    (String.mk (p1 ++ '$' :: lbrace :: (e1 ++ rbrace ::
      (p2 ++ v.data ++ (p3 ++ '$' :: lbrace :: (e3 ++ rbrace :: p4))))),
     some msg3) := by
  rw [show ResolveVariables (String.mk (p1 ++ '$' :: lbrace :: (e1 ++ rbrace ::
      (p2 ++ '$' :: lbrace :: (e2 ++ rbrace ::
        (p3 ++ '$' :: lbrace :: (e3 ++ rbrace :: p4))))))) ctx os =
      (String.mk (scanVars ctx os (p1 ++ '$' :: lbrace :: (e1 ++ rbrace ::
        (p2 ++ '$' :: lbrace :: (e2 ++ rbrace ::
          (p3 ++ '$' :: lbrace :: (e3 ++ rbrace :: p4))))))).1,
       (scanVars ctx os (p1 ++ '$' :: lbrace :: (e1 ++ rbrace ::
        (p2 ++ '$' :: lbrace :: (e2 ++ rbrace ::
          (p3 ++ '$' :: lbrace :: (e3 ++ rbrace :: p4))))))).2) from rfl]
  rw [scanVars_append ctx os p1 _ h1,
      scanVars_match_err ctx os _ herr1 he1 hbr1,
      scanVars_append ctx os p2 _ h2,
      scanVars_match_ok ctx os _ hok he2 hbr2,
      scanVars_append ctx os p3 _ h3,
      scanVars_match_err ctx os _ herr3 he3 hbr3,
      scanVars_nodollar ctx os p4 h4]
  simp [List.append_assoc]

/-- A resolution context supplying only the input value `port`. -/
def ctxC10 : ResolutionContext :=
  { workspaceFolder := "", currentFile := "", lineNumber := 0, selectedText := "",
    inputValues := [("port", "8080")], envOverrides := [] }

/-- An operating-system environment in which every external lookup fails
or is empty. -/
def osEx : OSEnv :=
  { getenv := fun _ => "", userHome := .error "unset", getwd := .error "unset",
    executable := .error "unset", pathSeparator := "/",
    readSetting := fun _ _ => .error "unset",
    resolveCommand := fun _ _ => .error "unset" }

/-- **C10, witness.**  `"a$\x7bbogus\x7d-$\x7binput:port\x7d-$\x7bnope\x7dz"`
with only `port` provided: the input reference is substituted, both unknown
variables stay verbatim, and the returned error is the last one. -/
theorem resolveVariables_partial_substitution_witness :
    ResolveVariables (String.mk ("a".data ++ '$' :: lbrace :: ("bogus".data ++ rbrace ::
      ("-".data ++ '$' :: lbrace :: ("input:port".data ++ rbrace ::
        ("-".data ++ '$' :: lbrace :: ("nope".data ++ rbrace :: "z".data))))))) ctxC10 osEx =
    (String.mk ("a".data ++ '$' :: lbrace :: ("bogus".data ++ rbrace ::
      ("-".data ++ ("8080" : String).data ++ ("-".data ++ '$' :: lbrace ::
        ("nope".data ++ rbrace :: "z".data))))),
     some "unknown variable: $\x7bnope\x7d") :=
  resolveVariables_partial_substitution ctxC10 osEx
    "a".data "-".data "-".data "z".data "bogus".data "input:port".data "nope".data
    "8080" "unknown variable: $\x7bbogus\x7d" "unknown variable: $\x7bnope\x7d"
    (by decide) (by decide) (by decide) (by decide)
    (by decide) (by decide) (by decide) (by decide) (by decide) (by decide)
    rfl rfl rfl

/-! ### Input scanning and configuration resolution (C5)

`FindAllRequiredInputsInConfig` (main.go variables file) scans a fixed
list of string fields, the two string arrays, the two string maps and the
marshalled `Extra` bag; `ValidateInputsProvided` filters the result
against the provided input values; `ResolveConfiguration` (launchconfig
resolve file) checks for missing inputs first and only then resolves each
field, wrapping a field's resolution error. -/

/-- The `addInputs` closure's `seen` check: append an id not yet collected. -/
def addInput (acc : List String) (id : String) : List String :=
  if id ∈ acc then acc else acc ++ [id]

/-- The `addInputs` closure of `FindAllRequiredInputsInConfig`. -/
def addInputs (acc : List String) (text : String) : List String :=
  (FindRequiredInputs text).foldl addInput acc

/-- `FindAllRequiredInputsInConfig`: the scanned fields, in source order.
(`python`, `preLaunchTask`, `postDebugTask` and the LLDB/GDB string fields
are absent from the scan.) -/
def FindAllRequiredInputsInConfig (cfg : DebugConfiguration) : List String :=
  let acc := addInputs [] cfg.program
  let acc := addInputs acc cfg.cwd
  let acc := addInputs acc cfg.webRoot
  let acc := addInputs acc cfg.url
  let acc := addInputs acc cfg.console
  let acc := addInputs acc cfg.module
  let acc := addInputs acc cfg.pythonPath
  let acc := addInputs acc cfg.mode
  let acc := addInputs acc cfg.buildFlags
  let acc := addInputs acc cfg.runtimeExecutable
  let acc := addInputs acc cfg.host
  let acc := addInputs acc cfg.debugAdapterPath
  let acc := cfg.args.foldl addInputs acc
  let acc := cfg.runtimeArgs.foldl addInputs acc
  let acc := (cfg.env.map Prod.snd).foldl addInputs acc
  let acc := (cfg.sourceMapPathOverrides.map Prod.snd).foldl addInputs acc
  if cfg.extra ≠ [] then addInputs acc (renderJVal (.obj cfg.extra)) else acc

/-- `ValidateInputsProvided`: the required inputs the value map misses. -/
def ValidateInputsProvided (cfg : DebugConfiguration)
    (inputValues : List (String × String)) : List String :=
  (FindAllRequiredInputsInConfig cfg).filter
    (fun id => (GoMap.lookup id inputValues).isNone)

/-- `ResolveStringField` (main.go variables file). -/
def ResolveStringField (value : String) (ctx : ResolutionContext) (os : OSEnv) :
    Except String String :=
  if value = "" then .ok ""
  else
    match ResolveVariables value ctx os with
    | (r, none) => .ok r
    | (_, some e) => .error e

/-- The loop of `ResolveStringSlice`, carrying the element index. -/
def ResolveStringSliceAux (ctx : ResolutionContext) (os : OSEnv) :
    Nat → List String → Except String (List String)
  | _, [] => .ok []
  | i, val :: rest =>
    match ResolveVariables val ctx os with
    | (_, some e) => .error ("failed to resolve element " ++ toString i ++ ": " ++ e)
    | (r, none) =>
      match ResolveStringSliceAux ctx os (i + 1) rest with
      | .error e => .error e
      | .ok rs => .ok (r :: rs)

/-- `ResolveStringSlice` (main.go variables file). -/
def ResolveStringSlice (vals : List String) (ctx : ResolutionContext) (os : OSEnv) :
    Except String (List String) :=
  ResolveStringSliceAux ctx os 0 vals

/-- The loop of `ResolveStringMap` (values resolved, keys kept). -/
def ResolveStringMapAux (ctx : ResolutionContext) (os : OSEnv) :
    List (String × String) → Except String (List (String × String))
  | [] => .ok []
  | (k, val) :: rest =>
    match ResolveVariables val ctx os with
    | (_, some e) =>
      .error ("failed to resolve value for key \"" ++ k ++ "\": " ++ e)
    | (r, none) =>
      match ResolveStringMapAux ctx os rest with
      | .error e => .error e
      | .ok rs => .ok ((k, r) :: rs)

/-- `ResolveStringMap` (main.go variables file). -/
def ResolveStringMap (vals : List (String × String)) (ctx : ResolutionContext)
    (os : OSEnv) : Except String (List (String × String)) :=
  ResolveStringMapAux ctx os vals

mutual

/-- `resolveValue` (launchconfig resolve file): strings are resolved,
arrays and objects recursed into, other values pass through. -/
def resolveValue (ctx : ResolutionContext) (os : OSEnv) : JVal → Except String JVal
  | .str s =>
    match ResolveVariables s ctx os with
    | (r, none) => .ok (.str r)
    | (_, some e) => .error e
  | .arr xs =>
    match resolveValueList ctx os xs with
    | .error e => .error e
    | .ok rs => .ok (.arr rs)
  | .obj fs =>
    match resolveValueFields ctx os fs with
    | .error e => .error e
    | .ok rs => .ok (.obj rs)
  | v => .ok v

def resolveValueList (ctx : ResolutionContext) (os : OSEnv) :
    List JVal → Except String (List JVal)
  | [] => .ok []
  | x :: xs =>
    match resolveValue ctx os x with
    | .error e => .error e
    | .ok r =>
      match resolveValueList ctx os xs with
      | .error e => .error e
      | .ok rs => .ok (r :: rs)

def resolveValueFields (ctx : ResolutionContext) (os : OSEnv) :
    List (String × JVal) → Except String (List (String × JVal))
  | [] => .ok []
  | (k, x) :: xs =>
    match resolveValue ctx os x with
    | .error e => .error e
    | .ok r =>
      match resolveValueFields ctx os xs with
      | .error e => .error e
      | .ok rs => .ok ((k, r) :: rs)

end

/-- `resolveExtraFields` (launchconfig resolve file): each value resolved,
a failure wrapped with the key. -/
def resolveExtraFields (ctx : ResolutionContext) (os : OSEnv) :
    List (String × JVal) → Except String (List (String × JVal))
  | [] => .ok []
  | (k, v) :: rest =>
    match resolveValue ctx os v with
    | .error e => .error ("failed to resolve extra[" ++ k ++ "]: " ++ e)
    | .ok r =>
      match resolveExtraFields ctx os rest with
      | .error e => .error e
      | .ok rs => .ok ((k, r) :: rs)

/-- The two error shapes `ResolveConfiguration` returns: the
`MissingInputsError` of the up-front check, or a field resolution failure
(`fmt.Errorf("failed to resolve <field>: %w", err)`). -/
inductive ConfigError where
  | missingInputs (inputs : List String)
  | resolveField (msg : String)
  deriving DecidableEq, Repr

/-- Wrap a field's resolution failure the way `ResolveConfiguration`
does. -/
def fieldE {α : Type} (fld : String) : Except String α → Except ConfigError α
  | .ok v => .ok v
  | .error e => .error (.resolveField ("failed to resolve " ++ fld ++ ": " ++ e))

/-- The `TypeToLanguage` map (launchconfig types file). -/
def TypeToLanguage : List (String × String) :=
  [("python", "python"), ("debugpy", "python"),
   ("go", "go"),
   ("node", "javascript"), ("pwa-node", "javascript"),
   ("chrome", "javascript"), ("pwa-chrome", "javascript"),
   ("msedge", "javascript"), ("pwa-msedge", "javascript"),
   ("lldb", "c"), ("lldb-dap", "c"), ("codelldb", "c"),
   ("gdb", "c"), ("cppdbg", "cpp"),
   ("c", "c"), ("cpp", "cpp"), ("rust", "rust")]

/-- `DebugConfiguration.GetLanguage`. -/
def GetLanguage (c : DebugConfiguration) : String :=
  match GoMap.lookup c.type TypeToLanguage with
  | some lang => lang
  | none => c.type

/-- `DebugConfiguration.GetTarget`. -/
def GetTarget (c : DebugConfiguration) : String :=
  if c.type = "chrome" ∨ c.type = "pwa-chrome" then "chrome"
  else if c.type = "msedge" ∨ c.type = "pwa-msedge" then "edge"
  else if c.type = "node" ∨ c.type = "pwa-node" then "node"
  else ""

/-- `ResolvedConfiguration`. -/
structure ResolvedConfiguration where
  config : DebugConfiguration
  language : String
  target : String
  deriving DecidableEq

/-- The copy `ResolveConfiguration` starts from: only the listed non-string
fields carry over (the LLDB/GDB-specific fields are left at their zero
values, as in the source). -/
def resolvedBase (cfg : DebugConfiguration) : DebugConfiguration :=
  { zeroConfig with
    type := cfg.type
    request := cfg.request
    name := cfg.name
    stopOnEntry := cfg.stopOnEntry
    port := cfg.port
    processId := cfg.processId
    justMyCode := cfg.justMyCode
    django := cfg.django
    jinja := cfg.jinja
    redirectOutput := cfg.redirectOutput
    sourceMaps := cfg.sourceMaps
    presentation := cfg.presentation }

/-- `ResolveConfiguration`, first third: the string fields resolved before
`mode`, in source order. -/
def resolveStage1 (cfg : DebugConfiguration) (ctx : ResolutionContext) (os : OSEnv)
    (c : DebugConfiguration) : Except ConfigError DebugConfiguration :=
  match fieldE "program" (ResolveStringField cfg.program ctx os) with
  | .error e => .error e
  | .ok program =>
  match fieldE "cwd" (ResolveStringField cfg.cwd ctx os) with
  | .error e => .error e
  | .ok cwd =>
  match fieldE "webRoot" (ResolveStringField cfg.webRoot ctx os) with
  | .error e => .error e
  | .ok webRoot =>
  match fieldE "url" (ResolveStringField cfg.url ctx os) with
  | .error e => .error e
  | .ok url =>
  match fieldE "console" (ResolveStringField cfg.console ctx os) with
  | .error e => .error e
  | .ok console =>
  match fieldE "host" (ResolveStringField cfg.host ctx os) with
  | .error e => .error e
  | .ok host =>
  match fieldE "runtimeExecutable" (ResolveStringField cfg.runtimeExecutable ctx os) with
  | .error e => .error e
  | .ok runtimeExecutable =>
  .ok { c with
    program := program
    cwd := cwd
    webRoot := webRoot
    url := url
    console := console
    host := host
    runtimeExecutable := runtimeExecutable }

/-- `ResolveConfiguration`, second third: `mode` through `postDebugTask`,
in source order (`python` before `pythonPath`). -/
def resolveStage2 (cfg : DebugConfiguration) (ctx : ResolutionContext) (os : OSEnv)
    (c : DebugConfiguration) : Except ConfigError DebugConfiguration :=
  match fieldE "mode" (ResolveStringField cfg.mode ctx os) with
  | .error e => .error e
  | .ok mode =>
  match fieldE "buildFlags" (ResolveStringField cfg.buildFlags ctx os) with
  | .error e => .error e
  | .ok buildFlags =>
  match fieldE "python" (ResolveStringField cfg.python ctx os) with
  | .error e => .error e
  | .ok python =>
  match fieldE "pythonPath" (ResolveStringField cfg.pythonPath ctx os) with
  | .error e => .error e
  | .ok pythonPath =>
  match fieldE "module" (ResolveStringField cfg.module ctx os) with
  | .error e => .error e
  | .ok module_ =>
  match fieldE "debugAdapterPath" (ResolveStringField cfg.debugAdapterPath ctx os) with
  | .error e => .error e
  | .ok debugAdapterPath =>
  match fieldE "preLaunchTask" (ResolveStringField cfg.preLaunchTask ctx os) with
  | .error e => .error e
  | .ok preLaunchTask =>
  match fieldE "postDebugTask" (ResolveStringField cfg.postDebugTask ctx os) with
  | .error e => .error e
  | .ok postDebugTask =>
  .ok { c with
    mode := mode
    buildFlags := buildFlags
    python := python
    pythonPath := pythonPath
    module := module_
    debugAdapterPath := debugAdapterPath
    preLaunchTask := preLaunchTask
    postDebugTask := postDebugTask }

/-- `ResolveConfiguration`, last third: the arrays, the maps and the
`Extra` bag. -/
def resolveStage3 (cfg : DebugConfiguration) (ctx : ResolutionContext) (os : OSEnv)
    (c : DebugConfiguration) : Except ConfigError DebugConfiguration :=
  match fieldE "args" (ResolveStringSlice cfg.args ctx os) with
  | .error e => .error e
  | .ok args =>
  match fieldE "runtimeArgs" (ResolveStringSlice cfg.runtimeArgs ctx os) with
  | .error e => .error e
  | .ok runtimeArgs =>
  match fieldE "env" (ResolveStringMap cfg.env ctx os) with
  | .error e => .error e
  | .ok env =>
  match fieldE "sourceMapPathOverrides" (ResolveStringMap cfg.sourceMapPathOverrides ctx os) with
  | .error e => .error e
  | .ok sourceMapPathOverrides =>
  match (if cfg.extra ≠ [] then
      fieldE "extra fields" (resolveExtraFields ctx os cfg.extra)
    else .ok c.extra) with
  | .error e => .error e
  | .ok extra =>
  .ok { c with
    args := args
    runtimeArgs := runtimeArgs
    env := env
    sourceMapPathOverrides := sourceMapPathOverrides
    extra := extra }

/-- `ResolveConfiguration` (launchconfig resolve file): the missing-input
check comes first; only if it passes is any field resolved. -/
def ResolveConfiguration (cfg : DebugConfiguration) (ctx : ResolutionContext)
    (os : OSEnv) : Except ConfigError ResolvedConfiguration :=
  let missingInputs := ValidateInputsProvided cfg ctx.inputValues
  if missingInputs ≠ [] then
    .error (.missingInputs missingInputs)
  else
    match resolveStage1 cfg ctx os (resolvedBase cfg) with
    | .error e => .error e
    | .ok c1 =>
      match resolveStage2 cfg ctx os c1 with
      | .error e => .error e
      | .ok c2 =>
        match resolveStage3 cfg ctx os c2 with
        | .error e => .error e
        | .ok c3 =>
          .ok { config := c3, language := GetLanguage c3, target := GetTarget c3 }

/-- A configuration whose only variable reference sits in the `python`
field, which the input scan does not cover. -/
def cfgC5 : DebugConfiguration := { zeroConfig with python := "$\x7binput:venv\x7d" }

/-- A resolution context providing no input values. -/
def ctxC5 : ResolutionContext :=
  { workspaceFolder := "", currentFile := "", lineNumber := 0, selectedText := "",
    inputValues := [], envOverrides := [] }

theorem addInputs_empty (acc : List String) : addInputs acc "" = acc := by
  unfold addInputs FindRequiredInputs
  rw [show ("" : String).data = ([] : List Char) from rfl]
  rw [show findRefs ([] : List Char) = [] from by simp [findRefs]]
  rfl

/-- **C5.**  The claim fails against the code: the up-front scan misses the
`python` field.  For `cfgC5` (whose `python` is `$\x7binput:venv\x7d` and
which provides no inputs), `FindRequiredInputs` does find `venv` in that
string, yet `FindAllRequiredInputsInConfig` returns nothing, so
`ValidateInputsProvided` reports nothing missing and `ResolveConfiguration`
— instead of returning `MissingInputsError [venv]` and expanding nothing —
proceeds to expansion and fails with the `python` field's wrapped
resolution error. -/
theorem findAllRequiredInputs_misses_python :
    FindRequiredInputs cfgC5.python = ["venv"] ∧
    FindAllRequiredInputsInConfig cfgC5 = [] ∧
    ValidateInputsProvided cfgC5 ctxC5.inputValues = [] ∧
    ResolveConfiguration cfgC5 ctxC5 osEx =
      .error (.resolveField
        "failed to resolve python: missing input value for $\x7binput:venv\x7d") := by
  have hrefs : findRefs (String.data "$\x7binput:venv\x7d") = ["input:venv"] := by
    simp [findRefs, splitAtBrace, lbrace, rbrace, String.data]
  have h1 : FindRequiredInputs cfgC5.python = ["venv"] := by
    rw [show cfgC5.python = "$\x7binput:venv\x7d" from rfl]
    unfold FindRequiredInputs
    rw [hrefs]
    rfl
  have h2 : FindAllRequiredInputsInConfig cfgC5 = [] := by
    simp [FindAllRequiredInputsInConfig, cfgC5, zeroConfig, addInputs_empty]
  have h3 : ValidateInputsProvided cfgC5 ctxC5.inputValues = [] := by
    simp [ValidateInputsProvided, h2]
  have herr : resolveVariable (String.mk ("input:venv".data)) ctxC5 osEx =
      .error "missing input value for $\x7binput:venv\x7d" := rfl
  have hsv : scanVars ctxC5 osEx ('$' :: lbrace :: ("input:venv".data ++ rbrace :: [])) =
      ('$' :: lbrace :: ("input:venv".data ++ rbrace :: []),
       some "missing input value for $\x7binput:venv\x7d") := by
    rw [scanVars_match_err ctxC5 osEx [] herr (by decide) (by decide),
        scanVars_nodollar ctxC5 osEx [] (by decide)]
    rfl
  have hpy : ResolveStringField cfgC5.python ctxC5 osEx =
      .error "missing input value for $\x7binput:venv\x7d" := by
    have hrv : ResolveVariables cfgC5.python ctxC5 osEx =
        (String.mk ('$' :: lbrace :: ("input:venv".data ++ rbrace :: [])),
         some "missing input value for $\x7binput:venv\x7d") := by
      rw [show ResolveVariables cfgC5.python ctxC5 osEx =
          (String.mk (scanVars ctxC5 osEx
              ('$' :: lbrace :: ("input:venv".data ++ rbrace :: []))).1,
           (scanVars ctxC5 osEx
              ('$' :: lbrace :: ("input:venv".data ++ rbrace :: []))).2) from rfl]
      rw [hsv]
    unfold ResolveStringField
    rw [if_neg (by decide : ¬ (cfgC5.python = "")), hrv]
  have hs2 : ∀ c', resolveStage2 cfgC5 ctxC5 osEx c' =
      .error (.resolveField
        "failed to resolve python: missing input value for $\x7binput:venv\x7d") := by
    intro c'
    unfold resolveStage2
    rw [hpy]
    rfl
  refine ⟨h1, h2, h3, ?_⟩
  simp only [ResolveConfiguration, h3, hs2]
  rfl

/-! ### The marshal/unmarshal round trip (C7) -/

theorem lookup_none_of_unknown {extra : List (String × JVal)}
    (hx : ∀ kv ∈ extra, kv.1 ∉ knownFields) {k : String} (hk : k ∈ knownFields) :
    GoMap.lookup k extra = none := by
  induction extra with
  | nil => rfl
  | cons e rest ih =>
    obtain ⟨k1, v1⟩ := e
    have hne : ¬ (k1 = k) := fun h =>
      hx (k1, v1) (List.mem_cons_self (k1, v1) rest) (h ▸ hk)
    simp only [GoMap.lookup, if_neg hne]
    exact ih (fun kv hkv => hx kv (List.mem_cons_of_mem _ hkv))

theorem mergeExtra_disjoint {base extra : List (String × JVal)}
    (h : ∀ kv ∈ base, ∀ e ∈ extra, e.1 ≠ kv.1) :
    mergeExtra base extra = base ++ extra := by
  unfold mergeExtra
  congr 1
  apply List.filter_eq_self.mpr
  intro kv hkv
  apply List.all_eq_true.mpr
  intro e he
  exact bne_iff_ne.mpr (h kv hkv e he)

theorem filter_unknown_extra (c : DebugConfiguration)
    (hx : ∀ kv ∈ c.extra, kv.1 ∉ knownFields) :
    (marshalAlias c ++ c.extra).filter
      (fun kv => !(knownFields.contains kv.1)) = c.extra := by
  rw [List.filter_append]
  have ha : (marshalAlias c).filter (fun kv => !(knownFields.contains kv.1)) = [] := by
    apply List.filter_eq_nil_iff.mpr
    intro kv hkv
    have hm : kv.1 ∈ knownFields := marshalAlias_keys c kv hkv
    simp [hm]
  have hb : c.extra.filter (fun kv => !(knownFields.contains kv.1)) = c.extra := by
    apply List.filter_eq_self.mpr
    intro kv hkv
    have hm := hx kv hkv
    simp [hm]
  rw [ha, hb, List.nil_append]

/-- **C7, amended.**  Parsing the result of serializing a configuration
yields an equal configuration — including the `Extra` bag — provided no
`Extra` key collides with a known field name.  (With a colliding key the
merge step of `MarshalJSON` overwrites the struct field's value and the
round trip fails; see the counterexample.) -/
theorem unmarshal_marshal_roundtrip (c : DebugConfiguration)
    (hx : ∀ kv ∈ c.extra, kv.1 ∉ knownFields) :
    unmarshalJSON (marshalJSON c) = some c := by
  have hdisj : ∀ kv ∈ marshalAlias c, ∀ e ∈ c.extra, e.1 ≠ kv.1 := by
    intro kv hkv e he heq
    exact hx e he (heq ▸ marshalAlias_keys c kv hkv)
  have hraw : marshalJSON c = .obj (marshalAlias c ++ c.extra) := by
    unfold marshalJSON
    by_cases hext : c.extra = []
    · rw [if_pos hext, hext, List.append_nil]
    · rw [if_neg hext, mergeExtra_disjoint hdisj]
  have hrest : ∀ k ∈ knownFields, GoMap.lookup k c.extra = none :=
    fun k hk => lookup_none_of_unknown hx hk
  rw [hraw]
  simp only [unmarshalJSON]
  rw [filter_unknown_extra c hx]
  unfold unmarshalAlias unmarshalAlias1 unmarshalAlias2 unmarshalAlias3 unmarshalAlias4
  rw [alias_get_type c c.extra (hrest "type" (by decide)),
      alias_get_request c c.extra (hrest "request" (by decide)),
      alias_get_name c c.extra (hrest "name" (by decide)),
      alias_get_program c c.extra (hrest "program" (by decide)),
      alias_get_args c c.extra (hrest "args" (by decide)),
      alias_get_cwd c c.extra (hrest "cwd" (by decide)),
      alias_get_env c c.extra (hrest "env" (by decide)),
      alias_get_stopOnEntry c c.extra (hrest "stopOnEntry" (by decide)),
      alias_get_console c c.extra (hrest "console" (by decide)),
      alias_get_port c c.extra (hrest "port" (by decide)),
      alias_get_host c c.extra (hrest "host" (by decide)),
      alias_get_processId c c.extra (hrest "processId" (by decide)),
      alias_get_url c c.extra (hrest "url" (by decide)),
      alias_get_webRoot c c.extra (hrest "webRoot" (by decide)),
      alias_get_runtimeExecutable c c.extra (hrest "runtimeExecutable" (by decide)),
      alias_get_runtimeArgs c c.extra (hrest "runtimeArgs" (by decide)),
      alias_get_mode c c.extra (hrest "mode" (by decide)),
      alias_get_buildFlags c c.extra (hrest "buildFlags" (by decide)),
      alias_get_initCommands c c.extra (hrest "initCommands" (by decide)),
      alias_get_preRunCommands c c.extra (hrest "preRunCommands" (by decide)),
      alias_get_stopCommands c c.extra (hrest "stopCommands" (by decide)),
      alias_get_exitCommands c c.extra (hrest "exitCommands" (by decide)),
      alias_get_attachCommands c c.extra (hrest "attachCommands" (by decide)),
      alias_get_launchCommands c c.extra (hrest "launchCommands" (by decide)),
      alias_get_coreFile c c.extra (hrest "coreFile" (by decide)),
      alias_get_sourceMap c c.extra (hrest "sourceMap" (by decide)),
      alias_get_waitFor c c.extra (hrest "waitFor" (by decide)),
      alias_get_stopAtMain c c.extra (hrest "stopAtBeginningOfMainSubprogram" (by decide)),
      alias_get_miMode c c.extra (hrest "MIMode" (by decide)),
      alias_get_miDebuggerPath c c.extra (hrest "miDebuggerPath" (by decide)),
      alias_get_target c c.extra (hrest "target" (by decide)),
      alias_get_python c c.extra (hrest "python" (by decide)),
      alias_get_pythonPath c c.extra (hrest "pythonPath" (by decide)),
      alias_get_module c c.extra (hrest "module" (by decide)),
      alias_get_justMyCode c c.extra (hrest "justMyCode" (by decide)),
      alias_get_django c c.extra (hrest "django" (by decide)),
      alias_get_jinja c c.extra (hrest "jinja" (by decide)),
      alias_get_redirectOutput c c.extra (hrest "redirectOutput" (by decide)),
      alias_get_debugAdapterPath c c.extra (hrest "debugAdapterPath" (by decide)),
      alias_get_sourceMaps c c.extra (hrest "sourceMaps" (by decide)),
      alias_get_sourceMapPathOverrides c c.extra
        (hrest "sourceMapPathOverrides" (by decide)),
      alias_get_preLaunchTask c c.extra (hrest "preLaunchTask" (by decide)),
      alias_get_postDebugTask c c.extra (hrest "postDebugTask" (by decide)),
      alias_get_presentation c c.extra (hrest "presentation" (by decide))]
  rfl

/-- A configuration whose `Extra` bag reuses the known field name
`program` while the struct field holds a different value. -/
def cexCfg7 : DebugConfiguration :=
  { zeroConfig with program := "y", extra := [("program", JVal.str "x")] }

/-- **C7, counterexample.**  With an `Extra` key that collides with the
known field `program`, `MarshalJSON`'s merge overwrites the struct field's
value in the emitted object, and re-parsing yields a configuration whose
`program` is the `Extra` value and whose `Extra` bag is empty — not the
original. -/
theorem unmarshal_marshal_roundtrip_cex :
    unmarshalJSON (marshalJSON cexCfg7) ≠ some cexCfg7 := by decide

/-- The claim's scenario: an unknown field `customFlag: true` riding in
the `Extra` bag. -/
def cfg7 : DebugConfiguration :=
  { zeroConfig with program := "app.js", extra := [("customFlag", JVal.bool true)] }

/-- **C7, witness.**  The round trip preserves a configuration carrying
the unknown field `customFlag: true`. -/
theorem unmarshal_marshal_roundtrip_witness :
    unmarshalJSON (marshalJSON cfg7) = some cfg7 :=
  unmarshal_marshal_roundtrip cfg7 (by decide)

end DapMcp
